import Mathlib

set_option maxRecDepth 8000
set_option maxHeartbeats 1000000

/-!
# Verification of the MCP transport and tool-orchestration core

A shallow embedding of the core of the chat client: the tool-call block
parser and argument validator of `src/components/Chat.tsx`, the tool-use
loop of `handleSend`, the multi-server tool registry (`getMCPTools`,
`callMCPTool`), and the two wire transports (`DualChannelTransport` of
`src/services/mcpTransport.ts` and `StreamableHttpTransport` of
`src/services/streamableHttpTransport.ts`).

JavaScript runtime values flowing through this code are JSON-shaped, so
they are modelled by an explicit `Json` type together with the JavaScript
operations the source uses on them (`typeof`, property access,
`Object.entries`, spread/assignment, `JSON.parse`, `JSON.stringify`).
-/

/-- JSON values as produced by `JSON.parse`.  Numbers are kept as a decimal
mantissa/exponent pair (value = `mantissa * 10 ^ exp10`); object fields keep
first-occurrence order, later duplicate keys overwriting earlier values,
exactly as `JSON.parse` builds objects. -/
inductive Json where
  | null : Json
  | bool (b : Bool) : Json
  | num (mantissa : Int) (exp10 : Int) : Json
  | str (s : String) : Json
  | arr (elems : List Json) : Json
  | obj (fields : List (String × Json)) : Json

namespace Json

/-- `value === null`. -/
def isNull : Json → Bool
  | .null => true
  | _ => false

/-- JavaScript `typeof` on a JSON-shaped value: `typeof null` is
`"object"`, and arrays are `"object"` as well. -/
def jsTypeof : Json → String
  | .str _ => "string"
  | .num _ _ => "number"
  | .bool _ => "boolean"
  | .null => "object"
  | .arr _ => "object"
  | .obj _ => "object"

/-- JavaScript property access `value.key` for a non-index key: a field
lookup on objects, `undefined` (`none`) on every other value. -/
def getProp : Json → String → Option Json
  | .obj fields, k => (fields.find? (fun f => f.1 == k)).map (·.2)
  | _, _ => none

/-- `Object.entries` (also the object-spread view `{...value}`): an
object's fields in order, an array's elements under their decimal index
keys, and nothing for primitives. -/
def jsEntries : Json → List (String × Json)
  | .obj fields => fields
  | .arr elems => elems.enum.map (fun p => (toString p.1, p.2))
  | _ => []

end Json

/-- JavaScript property assignment `record[k] = v` on a string-keyed
record: overwrite in place when the key exists, append otherwise. -/
def jsSet (fields : List (String × Json)) (k : String) (v : Json) :
    List (String × Json) :=
  if fields.any (fun f => f.1 == k) then
    fields.map (fun f => if f.1 == k then (k, v) else f)
  else fields ++ [(k, v)]

/-- Lookup in a string-keyed record (first occurrence; records built by
`jsSet` or `JSON.parse` have unique keys). -/
def jsGet (fields : List (String × Json)) (k : String) : Option Json :=
  (fields.find? (fun f => f.1 == k)).map (·.2)

/-! ## `JSON.parse` -/

/-- JSON insignificant whitespace. -/
def isJsonWs (c : Char) : Bool :=
  c == ' ' || c == '\t' || c == '\n' || c == '\r'

def skipJsonWs (s : List Char) : List Char := s.dropWhile isJsonWs

def hexDigitVal (c : Char) : Option Nat :=
  if '0' ≤ c ∧ c ≤ '9' then some (c.toNat - 48)
  else if 'a' ≤ c ∧ c ≤ 'f' then some (c.toNat - 87)
  else if 'A' ≤ c ∧ c ≤ 'F' then some (c.toNat - 55)
  else none

/-- Body of a JSON string literal, after the opening quote: returns the
decoded string and the input after the closing quote.  `\uXXXX` escapes are
decoded as single code points (surrogate pairing is not modelled; no input
in this development uses surrogates). -/
def parseJStringAux : List Char → List Char → Option (String × List Char)
  | _, [] => none
  | acc, c :: cs =>
    if c == '"' then some (String.mk acc.reverse, cs)
    else if c == '\\' then
      match cs with
      | [] => none
      | e :: cs2 =>
        if e == '"' then parseJStringAux ('"' :: acc) cs2
        else if e == '\\' then parseJStringAux ('\\' :: acc) cs2
        else if e == '/' then parseJStringAux ('/' :: acc) cs2
        else if e == 'b' then parseJStringAux ('\x08' :: acc) cs2
        else if e == 'f' then parseJStringAux ('\x0c' :: acc) cs2
        else if e == 'n' then parseJStringAux ('\n' :: acc) cs2
        else if e == 'r' then parseJStringAux ('\r' :: acc) cs2
        else if e == 't' then parseJStringAux ('\t' :: acc) cs2
        else if e == 'u' then
          match cs2 with
          | h1 :: h2 :: h3 :: h4 :: cs3 =>
            match hexDigitVal h1, hexDigitVal h2, hexDigitVal h3, hexDigitVal h4 with
            | some a, some b, some c3, some d =>
              parseJStringAux (Char.ofNat (((a * 16 + b) * 16 + c3) * 16 + d) :: acc) cs3
            | _, _, _, _ => none
          | _ => none
        else none
    else parseJStringAux (c :: acc) cs

def digitVal (c : Char) : Nat := c.toNat - 48

def natOfDigits (ds : List Char) : Nat :=
  ds.foldl (fun a c => a * 10 + digitVal c) 0

/-- A JSON number token: optional minus, integer digits, optional
fraction, optional exponent.  The value is returned as
`mantissa * 10 ^ exp10`. -/
def parseJNumber (s : List Char) : Option (Json × List Char) :=
  let (neg, s1) := match s with
    | '-' :: r => (true, r)
    | _ => (false, s)
  let ints := s1.takeWhile Char.isDigit
  let s2 := s1.dropWhile Char.isDigit
  if ints.isEmpty then none
  else
    let step2 : Option (Nat × Int × List Char) :=
      match s2 with
      | '.' :: r =>
        let fr := r.takeWhile Char.isDigit
        let r2 := r.dropWhile Char.isDigit
        if fr.isEmpty then none
        else some (natOfDigits (ints ++ fr), -(fr.length : Int), r2)
      | _ => some (natOfDigits ints, 0, s2)
    match step2 with
    | none => none
    | some (mAbs, e0, s3) =>
      let step3 : Option (Int × List Char) :=
        match s3 with
        | 'e' :: r | 'E' :: r =>
          let (esign, r1) := match r with
            | '+' :: r2 => ((1 : Int), r2)
            | '-' :: r2 => ((-1 : Int), r2)
            | _ => ((1 : Int), r)
          let eds := r1.takeWhile Char.isDigit
          let r2 := r1.dropWhile Char.isDigit
          if eds.isEmpty then none
          else some (esign * (natOfDigits eds : Int), r2)
        | _ => some (0, s3)
      match step3 with
      | none => none
      | some (eexp, s4) =>
        let m : Int := if neg then -(mAbs : Int) else (mAbs : Int)
        some (.num m (e0 + eexp), s4)

def stripPrefixChars : List Char → List Char → Option (List Char)
  | [], s => some s
  | p :: ps, c :: cs => if c == p then stripPrefixChars ps cs else none
  | _ :: _, [] => none

mutual

/-- Recursive-descent JSON value parser (fuel-indexed; `jsonParse` supplies
enough fuel for any input, since every recursive descent consumes at least
one character). -/
def parseJValue : Nat → List Char → Option (Json × List Char)
  | 0, _ => none
  | fuel + 1, s =>
    match skipJsonWs s with
    | [] => none
    | c :: cs =>
      if c == '"' then
        (parseJStringAux [] cs).map (fun p => (.str p.1, p.2))
      else if c == '\x7b' then
        match skipJsonWs cs with
        | '\x7d' :: rest => some (.obj [], rest)
        | _ => (parseJMembers fuel cs []).map (fun p => (.obj p.1, p.2))
      else if c == '[' then
        match skipJsonWs cs with
        | ']' :: rest => some (.arr [], rest)
        | _ => (parseJItems fuel cs []).map (fun p => (.arr p.1, p.2))
      else if c == 't' then
        (stripPrefixChars ['r', 'u', 'e'] cs).map (fun r => (.bool true, r))
      else if c == 'f' then
        (stripPrefixChars ['a', 'l', 's', 'e'] cs).map (fun r => (.bool false, r))
      else if c == 'n' then
        (stripPrefixChars ['u', 'l', 'l'] cs).map (fun r => (.null, r))
      else
        parseJNumber (c :: cs)

/-- Comma-separated array items, called after `[` (nonempty case). -/
def parseJItems : Nat → List Char → List Json → Option (List Json × List Char)
  | 0, _, _ => none
  | fuel + 1, s, acc =>
    match parseJValue fuel s with
    | none => none
    | some (v, rest) =>
      match skipJsonWs rest with
      | ',' :: rest2 => parseJItems fuel rest2 (acc ++ [v])
      | ']' :: rest2 => some (acc ++ [v], rest2)
      | _ => none

/-- Comma-separated object members, called after `{` (nonempty case).
Duplicate keys overwrite earlier values in place (`jsSet`), as in
JavaScript's `JSON.parse`. -/
def parseJMembers : Nat → List Char → List (String × Json) →
    Option (List (String × Json) × List Char)
  | 0, _, _ => none
  | fuel + 1, s, acc =>
    match skipJsonWs s with
    | '"' :: cs =>
      match parseJStringAux [] cs with
      | none => none
      | some (k, rest) =>
        match skipJsonWs rest with
        | ':' :: rest2 =>
          match parseJValue fuel rest2 with
          | none => none
          | some (v, rest3) =>
            match skipJsonWs rest3 with
            | ',' :: rest4 => parseJMembers fuel rest4 (jsSet acc k v)
            | '\x7d' :: rest4 => some (jsSet acc k v, rest4)
            | _ => none
        | _ => none
    | _ => none

end

/-- `JSON.parse`: parse a complete JSON text (surrounding whitespace
allowed); `none` models a thrown `SyntaxError`. -/
def jsonParse (text : String) : Option Json :=
  match parseJValue (text.length + 1) text.data with
  | some (v, rest) => if (skipJsonWs rest).isEmpty then some v else none
  | none => none

/-! ## `JSON.stringify` -/

def hexChar (n : Nat) : Char :=
  if n < 10 then Char.ofNat (48 + n) else Char.ofNat (87 + n)

def escapeJChar (c : Char) : String :=
  if c == '"' then "\\\""
  else if c == '\\' then "\\\\"
  else if c == '\n' then "\\n"
  else if c == '\r' then "\\r"
  else if c == '\t' then "\\t"
  else if c == '\x08' then "\\b"
  else if c == '\x0c' then "\\f"
  else if c.toNat < 32 then
    "\\u00" ++ String.mk [hexChar (c.toNat / 16), hexChar (c.toNat % 16)]
  else String.singleton c

def escapeJString (s : String) : String :=
  s.data.foldl (fun a c => a ++ escapeJChar c) ""

/-- Decimal rendering of a parsed JSON number `m * 10 ^ e` (integers print
as integers, fractions with a point and trailing zeros stripped). -/
def renderNum (m e : Int) : String :=
  if 0 ≤ e then toString (m * (10 : Int) ^ e.toNat)
  else
    let k := (-e).toNat
    let n := m.natAbs
    let ip := n / 10 ^ k
    let fdigits := Nat.toDigits 10 (n % 10 ^ k)
    let padded := List.replicate (k - fdigits.length) '0' ++ fdigits
    let trimmed := (padded.reverse.dropWhile (· == '0')).reverse
    let sign := if m < 0 then "-" else ""
    if trimmed.isEmpty then sign ++ toString ip
    else sign ++ toString ip ++ "." ++ String.mk trimmed

def spacesN (n : Nat) : String := String.mk (List.replicate n ' ')

mutual

/-- Compact `JSON.stringify(value)`. -/
def stringifyComp : Json → String
  | .null => "null"
  | .bool true => "true"
  | .bool false => "false"
  | .num m e => renderNum m e
  | .str s => "\"" ++ escapeJString s ++ "\""
  | .arr xs => "[" ++ stringifyCompItems xs ++ "]"
  | .obj fs => "\x7b" ++ stringifyCompFields fs ++ "\x7d"

def stringifyCompItems : List Json → String
  | [] => ""
  | [x] => stringifyComp x
  | x :: y :: xs => stringifyComp x ++ "," ++ stringifyCompItems (y :: xs)

def stringifyCompFields : List (String × Json) → String
  | [] => ""
  | [(k, v)] => "\"" ++ escapeJString k ++ "\":" ++ stringifyComp v
  | (k, v) :: f :: fs =>
    "\"" ++ escapeJString k ++ "\":" ++ stringifyComp v ++ "," ++
      stringifyCompFields (f :: fs)

end

mutual

/-- Pretty `JSON.stringify(value, null, 2)` at a given current indent. -/
def stringifyP : Nat → Json → String
  | _, .null => "null"
  | _, .bool true => "true"
  | _, .bool false => "false"
  | _, .num m e => renderNum m e
  | _, .str s => "\"" ++ escapeJString s ++ "\""
  | _, .arr [] => "[]"
  | ind, .arr (x :: xs) =>
    "[\n" ++ stringifyPItems (ind + 2) (x :: xs) ++ "\n" ++ spacesN ind ++ "]"
  | _, .obj [] => "\x7b\x7d"
  | ind, .obj (f :: fs) =>
    "\x7b\n" ++ stringifyPFields (ind + 2) (f :: fs) ++ "\n" ++ spacesN ind ++ "\x7d"

def stringifyPItems : Nat → List Json → String
  | _, [] => ""
  | ind, [x] => spacesN ind ++ stringifyP ind x
  | ind, x :: y :: xs =>
    spacesN ind ++ stringifyP ind x ++ ",\n" ++ stringifyPItems ind (y :: xs)

def stringifyPFields : Nat → List (String × Json) → String
  | _, [] => ""
  | ind, [(k, v)] =>
    spacesN ind ++ "\"" ++ escapeJString k ++ "\": " ++ stringifyP ind v
  | ind, (k, v) :: f :: fs =>
    spacesN ind ++ "\"" ++ escapeJString k ++ "\": " ++ stringifyP ind v ++ ",\n" ++
      stringifyPFields ind (f :: fs)

end

/-- `JSON.stringify(value, null, 2)`. -/
def stringifyPretty (v : Json) : String := stringifyP 0 v

/-! ## Tool-call block extraction (`parseToolRequests`, `Chat.tsx` 719-780)

The source matches `/TOOL[\s_]?CALL:?\s*([\s\S]*?)\s*END[\s_]?TOOL[\s_]?CALL/gi`
with a `while (exec)` loop.  The scanner below is the deterministic reading
of that regex: in `[\s_]?` the class is always followed by a literal letter
that no class member can equal case-insensitively, so the greedy option
never backtracks usefully; the lazy capture group stops at the earliest
position whose whitespace run is immediately followed by the closing
marker, which is exactly where the backtracking engine stops; and `g`
resumes each search at the end of the previous match. -/

/-- JavaScript's `\s` character class (also what `String.prototype.trim`
removes). -/
def isJsWs (c : Char) : Bool :=
  c == ' ' || c == '\t' || c == '\n' || c == '\r' || c == '\x0b' || c == '\x0c' ||
  c == '\u00A0' || c == '\u1680' || ('\u2000' ≤ c && c ≤ '\u200A') ||
  c == '\u2028' || c == '\u2029' || c == '\u202F' || c == '\u205F' ||
  c == '\u3000' || c == '\uFEFF'

/-- Case-insensitive character comparison (the regex `i` flag). -/
def ciEq (a b : Char) : Bool := a.toLower == b.toLower

/-- Case-insensitive literal match; returns the rest of the input. -/
def matchLitCI : List Char → List Char → Option (List Char)
  | [], s => some s
  | _ :: _, [] => none
  | l :: ls, c :: cs => if ciEq c l then matchLitCI ls cs else none

/-- `[\s_]?`: optionally consume one whitespace-or-underscore character. -/
def sepOpt : List Char → List Char
  | [] => []
  | c :: cs => if isJsWs c || c == '_' then cs else c :: cs

/-- The opening marker `TOOL[\s_]?CALL:?`; returns the input after it. -/
def matchOpen (s : List Char) : Option (List Char) :=
  match matchLitCI ['T', 'O', 'O', 'L'] s with
  | none => none
  | some s1 =>
    match matchLitCI ['C', 'A', 'L', 'L'] (sepOpt s1) with
    | none => none
    | some s2 =>
      match s2 with
      | ':' :: rest => some rest
      | _ => some s2

/-- The closing marker `END[\s_]?TOOL[\s_]?CALL`; returns the input after it. -/
def matchClose (s : List Char) : Option (List Char) :=
  match matchLitCI ['E', 'N', 'D'] s with
  | none => none
  | some s1 =>
    match matchLitCI ['T', 'O', 'O', 'L'] (sepOpt s1) with
    | none => none
    | some s2 => matchLitCI ['C', 'A', 'L', 'L'] (sepOpt s2)

/-- The lazy tail `([\s\S]*?)\s*END[\s_]?TOOL[\s_]?CALL`: find the earliest
position whose whitespace run is immediately followed by the closing
marker; returns the capture (everything before that position) and the rest
of the input after the marker. -/
def findClose : List Char → Option (List Char × List Char)
  | [] => none
  | c :: cs =>
    match matchClose ((c :: cs).dropWhile isJsWs) with
    | some rest => some ([], rest)
    | none => (findClose cs).map (fun pr => (c :: pr.1, pr.2))

/-- One `exec` round after another: at each position try the opening
marker and, if it matches, the closing search; a match emits its capture
and resumes at the end of the match, a failure moves one character
forward.  Fuel is the input length, which every step strictly decreases. -/
def scanBlocksAux : Nat → List Char → List (List Char)
  | 0, _ => []
  | _ + 1, [] => []
  | fuel + 1, c :: cs =>
    match matchOpen (c :: cs) with
    | some afterOpen =>
      match findClose (afterOpen.dropWhile isJsWs) with
      | some (cap, rest) => cap :: scanBlocksAux fuel rest
      | none => scanBlocksAux fuel cs
    | none => scanBlocksAux fuel cs

/-- All raw (untrimmed) captures of the block regex over a text. -/
def scanBlocks (text : String) : List (List Char) :=
  scanBlocksAux text.data.length text.data

/-- `String.prototype.trim`. -/
def jsTrim (s : List Char) : List Char :=
  ((s.dropWhile isJsWs).reverse.dropWhile isJsWs).reverse

/-- A parsed tool invocation request (`ToolCallRequest` in `Chat.tsx`):
target tool plus the raw `arguments` value accepted for it. -/
structure ToolCallRequest where
  tool : String
  arguments : Json

/-- Structural validation of one parsed block (`Chat.tsx` 742-762): the
checks `typeof parsed === 'object' && parsed !== null &&
typeof parsed.tool === 'string'`, the defaulting of an absent `arguments`
to `{}`, and the `typeof toolArgs !== 'object' || toolArgs === null`
rejection. -/
def toolRequestOfJson (parsed : Json) : Option ToolCallRequest :=
  if parsed.jsTypeof == "object" && !parsed.isNull then
    match parsed.getProp "tool" with
    | some (.str toolName) =>
      let toolArgs := (parsed.getProp "arguments").getD (.obj [])
      if toolArgs.jsTypeof == "object" && !toolArgs.isNull then
        some ⟨toolName, toolArgs⟩
      else none
    | _ => none
  else none

/-- `parseToolRequests` (`Chat.tsx` 719-780): extract every block, parse
the trimmed capture as JSON, and keep the structurally valid requests in
order; blocks whose body fails `JSON.parse` or the structural checks are
skipped without affecting the others. -/
def parseToolRequests (llmResponse : String) : List ToolCallRequest :=
  (scanBlocks llmResponse).filterMap fun rawCapture =>
    match jsonParse (String.mk (jsTrim rawCapture)) with
    | none => none
    | some parsed => toolRequestOfJson parsed

/-! ## Tool definitions and argument validation (`Chat.tsx` 783-826) -/

/-- One property of a tool's JSON-Schema-like input schema. -/
structure MCPPropertySchema where
  type : Option String := none
  description : Option String := none
deriving DecidableEq

/-- The `inputSchema` / `outputSchema` shape of a tool. -/
structure MCPSchema where
  type : String := "object"
  properties : Option (List (String × MCPPropertySchema)) := none
  required : Option (List String) := none
deriving DecidableEq

/-- Display/behaviour hints attached to a tool. -/
structure MCPAnnotations where
  title : Option String := none
  readOnlyHint : Option Bool := none
  destructiveHint : Option Bool := none
  idempotentHint : Option Bool := none
  openWorldHint : Option Bool := none
deriving DecidableEq

/-- A tool definition tagged with its owning server (`MCPToolWithServer`). -/
structure MCPToolWithServer where
  name : String
  description : Option String := none
  inputSchema : MCPSchema
  outputSchema : Option MCPSchema := none
  toolHints : Option MCPAnnotations := none
  serverName : String := ""
  serverUrl : String := ""
deriving DecidableEq

/-- The required-parameters loop (`Chat.tsx` 787-792): the first `p` with
`!(p in args) || args[p] === undefined || args[p] === null` yields the
missing-parameter message. -/
def checkRequired (args : List (String × Json)) : List String → Option String
  | [] => none
  | p :: rest =>
    match jsGet args p with
    | none => some ("Отсутствует обязательный параметр: " ++ p)
    | some v =>
      if v.isNull then some ("Отсутствует обязательный параметр: " ++ p)
      else checkRequired args rest

/-- One round of the type-checking loop over `Object.entries(args)`
(`Chat.tsx` 795-823), including the `rag_data` / `use_reranker`
carve-out: `none` means this entry passes (unknown parameters only warn). -/
def typeErrorFor (toolName : String)
    (properties : List (String × MCPPropertySchema)) (k : String) (v : Json) :
    Option String :=
  if toolName == "rag_data" && k == "use_reranker" then
    if v.jsTypeof != "boolean" then
      some ("Параметр " ++ k ++ " должен быть boolean, получен " ++ v.jsTypeof)
    else none
  else
    match (properties.find? (fun f => f.1 == k)).map (·.2) with
    | none => none
    | some paramSchema =>
      let expectedType := paramSchema.type
      let actualType := v.jsTypeof
      if expectedType == some "string" && actualType != "string" then
        some ("Параметр " ++ k ++ " должен быть string, получен " ++ actualType)
      else if (expectedType == some "number" || expectedType == some "integer") &&
          actualType != "number" then
        some ("Параметр " ++ k ++ " должен быть number, получен " ++ actualType)
      else if expectedType == some "boolean" && actualType != "boolean" then
        some ("Параметр " ++ k ++ " должен быть boolean, получен " ++ actualType)
      else none

/-- The type-checking loop: first failing entry wins. -/
def checkTypes (toolName : String)
    (properties : List (String × MCPPropertySchema)) :
    List (String × Json) → Option String
  | [] => none
  | (k, v) :: rest =>
    match typeErrorFor toolName properties k v with
    | some e => some e
    | none => checkTypes toolName properties rest

/-- `validateToolArguments` (`Chat.tsx` 783-826): `none` = all valid,
`some message` = the first failing check's error message. -/
def validateToolArguments (tool : MCPToolWithServer)
    (args : List (String × Json)) : Option String :=
  let required := tool.inputSchema.required.getD []
  let properties := tool.inputSchema.properties.getD []
  match checkRequired args required with
  | some e => some e
  | none => checkTypes tool.name properties args

/-! ## Per-turn tool-call processing (`handleSend`, `Chat.tsx` 1039-1114) -/

inductive Role where
  | user
  | assistant
  | system
deriving DecidableEq

/-- A transcript message (token-accounting and duration fields of the UI
type are presentational and not part of the verified core). -/
structure ChatMessage where
  role : Role
  content : String
deriving DecidableEq

/-- Per-tool UI configuration (`mcpToolConfigs[name]`): the selection flag
and configured default arguments (only `use_reranker` is ever read). -/
structure ToolConfig where
  selected : Bool
  args : List (String × Json) := []

/-- Lines 1058-1068: start from the AI-provided arguments and, for
`rag_data`, add the configured `use_reranker` when the tool's
configuration defines one. -/
def mergedArgsOf (mcpToolConfigs : List (String × ToolConfig))
    (tool : MCPToolWithServer) (toolCall : ToolCallRequest) :
    List (String × Json) :=
  let toolConfig :=
    ((mcpToolConfigs.find? (fun f => f.1 == tool.name)).map (·.2)).getD ⟨false, []⟩
  let aiArgs := toolCall.arguments.jsEntries
  if tool.name == "rag_data" then
    match jsGet toolConfig.args "use_reranker" with
    | some v => jsSet aiArgs "use_reranker" v
    | none => aiArgs
  else aiArgs

/-- Processing of one parsed tool call inside one model turn
(`Chat.tsx` 1039-1114), producing its single outcome message.  `callTool`
stands for `callMCPTool`; its `.error m` models a thrown error whose
`.message` is `m`. -/
def processToolCall (selectedTools : List MCPToolWithServer)
    (mcpToolConfigs : List (String × ToolConfig))
    (callTool : String → List (String × Json) → Except String Json)
    (toolCall : ToolCallRequest) : ChatMessage :=
  match selectedTools.find? (fun t => t.name == toolCall.tool) with
  | none =>
    { role := .assistant,
      content := "TOOL_ERROR: " ++ toolCall.tool ++
        "\n\nИнструмент не найден или не активирован. Доступные инструменты: " ++
        String.intercalate ", " (selectedTools.map (·.name)) }
  | some tool =>
    let mergedArgs := mergedArgsOf mcpToolConfigs tool toolCall
    match validateToolArguments tool mergedArgs with
    | some validationError =>
      { role := .assistant,
        content := "TOOL_ERROR: " ++ tool.name ++ "\n\n" ++ validationError }
    | none =>
      match callTool tool.name mergedArgs with
      | .ok rawResult =>
        { role := .assistant,
          content := String.intercalate "\n"
            ["TOOL_RESULT: " ++ tool.name, "", "ARGUMENTS:", "```json",
             stringifyPretty toolCall.arguments, "```", "", "RESULT:", "```json",
             stringifyPretty rawResult, "```"] }
      | .error m =>
        { role := .assistant,
          content := "TOOL_ERROR: " ++ tool.name ++ "\n\n" ++ m }

/-- The `for` loop over one turn's parsed tool calls: every call produces
exactly one outcome message and processing always continues to the next
call. -/
def processToolCalls (selectedTools : List MCPToolWithServer)
    (mcpToolConfigs : List (String × ToolConfig))
    (callTool : String → List (String × Json) → Except String Json)
    (calls : List ToolCallRequest) : List ChatMessage :=
  calls.map (processToolCall selectedTools mcpToolConfigs callTool)

/-! ## The tool-use loop (`handleSend`, `Chat.tsx` 1011-1161) -/

/-- `MAX_ITERATIONS` (`Chat.tsx` 1019). -/
def MAX_ITERATIONS : Nat := 10

/-- What `handleSend`'s loop leaves behind: `currentResponse` (surfaced as
the final assistant message), `currentMessages` (the accumulated
transcript), and the final value of `iteration`. -/
structure LoopResult where
  finalResponse : String
  messages : List ChatMessage
  iterations : Nat
deriving DecidableEq

/-- The `while (iteration < MAX_ITERATIONS)` loop (`Chat.tsx` 1021-1157):
parse the current response; stop when it has no tool-call blocks;
otherwise process the calls, append the model's own text and the outcome
messages to the transcript, make one follow-up model call, and continue.
`llm` abstracts one backend call (`sendGigaChatMessage` /
`sendOpenRouterMessage` / `sendHuggingFaceMessage` applied to
`getMessagesForAPI` of the transcript), returning the response content;
`processTurn` abstracts the per-turn tool execution (instantiated with
`processToolCalls`).  The first argument is the remaining iteration
budget `MAX_ITERATIONS - iteration`. -/
def toolUseLoopAux (llm : List ChatMessage → String)
    (processTurn : List ToolCallRequest → List ChatMessage) :
    Nat → String → List ChatMessage → Nat → LoopResult
  | 0, currentResponse, currentMessages, iteration =>
    ⟨currentResponse, currentMessages, iteration⟩
  | remaining + 1, currentResponse, currentMessages, iteration =>
    match parseToolRequests currentResponse with
    | [] => ⟨currentResponse, currentMessages, iteration⟩
    | requestedToolCalls =>
      let toolResults := processTurn requestedToolCalls
      let nextMessages :=
        currentMessages ++ [⟨.assistant, currentResponse⟩] ++ toolResults
      toolUseLoopAux llm processTurn remaining (llm nextMessages) nextMessages
        (iteration + 1)

/-- The whole tool-use phase of `handleSend`: run the loop on the first
model response with the full iteration budget. -/
def runToolUseLoop (llm : List ChatMessage → String)
    (processTurn : List ToolCallRequest → List ChatMessage)
    (firstResponse : String) (baseMessages : List ChatMessage) : LoopResult :=
  toolUseLoopAux llm processTurn MAX_ITERATIONS firstResponse baseMessages 0

/-! ## Multi-server tool registry (`getMCPTools`, MCP service, lines 190-275) -/

/-- A tool as returned by a server's `tools/list` (the fields the
transformation at lines 223-253 reads; `toolHints` models the source's
`annotations` field). -/
structure RawTool where
  name : String
  description : Option String := none
  inputSchema : MCPSchema
  outputSchema : Option MCPSchema := none
  toolHints : Option MCPAnnotations := none
deriving DecidableEq

/-- A per-server entry of the returned status map. -/
structure ServerStatus where
  connected : Bool
  error : Option String := none
  toolCount : Nat
deriving DecidableEq

/-- The value `getMCPTools` resolves with. -/
structure MultiServerMCPToolsResponse where
  tools : List MCPToolWithServer
  serverStatuses : List (String × ServerStatus)

/-- One registry entry at discovery time: server name, configured url, and
the settled outcome of its `client.listTools()` call (`.error msg` models
a rejected promise whose `reason.message` is `msg`, with `""` standing for
a missing / empty message). -/
structure ServerFetchOutcome where
  name : String
  url : String
  fetchResult : Except String (List RawTool)

/-- The transformation at lines 223-253: copy the tool definition and tag
it with the owning server's name and url. -/
def tagTool (serverName serverUrl : String) (tool : RawTool) :
    MCPToolWithServer :=
  { name := tool.name,
    description := tool.description,
    inputSchema :=
      { type := "object",
        properties := tool.inputSchema.properties,
        required := tool.inputSchema.required },
    outputSchema := tool.outputSchema.map (fun s =>
      { type := "object", properties := s.properties, required := s.required }),
    toolHints := tool.toolHints.map (fun a =>
      { title := a.title, readOnlyHint := a.readOnlyHint,
        destructiveHint := a.destructiveHint, idempotentHint := a.idempotentHint,
        openWorldHint := a.openWorldHint }),
    serverName := serverName,
    serverUrl := serverUrl }

/-- Lines 255-268: the status entry one settled fetch contributes —
`connected: true` with the tool count when fulfilled, and
`{connected: false, error: reason?.message || 'Failed to fetch tools',
toolCount: 0}` when rejected. -/
def serverStatusOf (s : ServerFetchOutcome) : ServerStatus :=
  match s.fetchResult with
  | .ok ts => { connected := true, error := none, toolCount := ts.length }
  | .error e =>
    { connected := false,
      error := some (if e == "" then "Failed to fetch tools" else e),
      toolCount := 0 }

/-- Lines 219-255: the tagged tools one settled fetch contributes —
nothing when it was rejected. -/
def serverToolsOf (s : ServerFetchOutcome) : List MCPToolWithServer :=
  match s.fetchResult with
  | .ok ts => ts.map (tagTool s.name s.url)
  | .error _ => []

/-- `getMCPTools` (lines 190-275), given the registry contents after the
implicit connect attempt: `Promise.allSettled` over every server's
`tools/list`; fulfilled results are tagged and concatenated and the
server's status records `connected: true` with its tool count; a rejected
fetch only degrades that server's status.  The only throw is
`'No MCP servers connected'` for an empty registry (the `.error` case). -/
def getMCPTools (servers : List ServerFetchOutcome) :
    Except String MultiServerMCPToolsResponse :=
  match servers with
  | [] => .error "No MCP servers connected"
  | _ =>
    .ok
      { tools := (servers.map serverToolsOf).flatten,
        serverStatuses := servers.map (fun s => (s.name, serverStatusOf s)) }

/-! ## Dual-channel transport (`src/services/mcpTransport.ts`) -/

namespace DualChannelTransport

/-- Mutable state of a `DualChannelTransport` (the constructor sets only
`baseUrl`; the `eventSource` object and the registered `onclose` callback
are modelled by presence flags). -/
structure State where
  isStarted : Bool := false
  isClosed : Bool := false
  hasEventSource : Bool := false
  messagesEndpoint : Option String := none
  sessionId : Option String := none
  hasOnClose : Bool := false
deriving DecidableEq

/-- Events arriving on the SSE stream while `start()` is pending, tagged
with their arrival time in milliseconds after `start()`. -/
inductive SSEEvent where
  | endpointEv (data : String)
  | messageEv (data : String)
  | errorEv
deriving DecidableEq

/-- How a settling handler settles the start promise. -/
inductive Settle where
  | resolved (endpoint : String) (sessionId : Option String)
  | rejected (msg : String)
deriving DecidableEq

/-- The start-promise race (lines 48-184): the first settling occurrence
wins.  An `endpoint` event settles through the endpoint listener
(`handleEndpoint` abstracts the data-parsing and URL-resolution of lines
58-117, on which no verified claim depends); an `error` event before
`isStarted` rejects with `'Failed to establish SSE connection'` (line
168); plain `message` events never settle; and the `setTimeout` at lines
179-183 rejects with `'Timeout waiting for endpoint event'` after
10000 ms when nothing settled earlier. -/
def race (handleEndpoint : String → Settle) :
    List (Nat × SSEEvent) → Nat × Settle
  | [] => (10000, .rejected "Timeout waiting for endpoint event")
  | (t, ev) :: rest =>
    if t < 10000 then
      match ev with
      | .endpointEv d => (t, handleEndpoint d)
      | .errorEv => (t, .rejected "Failed to establish SSE connection")
      | .messageEv _ => race handleEndpoint rest
    else (10000, .rejected "Timeout waiting for endpoint event")

/-- `start()` (lines 39-185): immediate return when already started; throw
`'Transport has been closed'` when closed; otherwise open the SSE stream
and wait for the race to settle.  Returns the settle time, the state after
the call, and the rejection message if the returned promise rejected. -/
def start (st : State) (handleEndpoint : String → Settle)
    (events : List (Nat × SSEEvent)) : Nat × State × Option String :=
  if st.isStarted then (0, st, none)
  else if st.isClosed then (0, st, some "Transport has been closed")
  else
    let opened := { st with hasEventSource := true }
    match race handleEndpoint events with
    | (t, .resolved endpoint sid) =>
      (t,
        { opened with
          isStarted := true,
          messagesEndpoint := some endpoint,
          sessionId := match sid with | some s => some s | none => st.sessionId },
        none)
    | (t, .rejected m) => (t, opened, some m)

/-- `send()` (lines 190-201) with `sendRequest` (lines 206-236): the two
guard checks, then a POST whose non-2xx response becomes a thrown
`HTTP error`.  Returns the thrown error's message, or `none` on success
(the POST response body is never read for protocol content). -/
def send (st : State) (postOk : Bool) (postStatus : Nat)
    (postStatusText : String) : Option String :=
  if !st.isStarted || st.messagesEndpoint.isNone then
    some "Transport not started or endpoint not available"
  else if st.isClosed then
    some "Transport has been closed"
  else if !postOk then
    some ("HTTP error: " ++ toString postStatus ++ " " ++ postStatusText)
  else none

/-- Observable side effects of `close()`. -/
inductive CloseEffect where
  | closeStream
  | oncloseCallback
deriving DecidableEq

/-- `close()` (lines 241-257): early return when already closed; otherwise
mark closed, close the stream when one is open, and invoke the registered
`onclose` callback.  Nothing in the body can throw. -/
def close (st : State) : State × List CloseEffect :=
  if st.isClosed then (st, [])
  else
    ({ st with isClosed := true, hasEventSource := false },
      (if st.hasEventSource then [CloseEffect.closeStream] else []) ++
        (if st.hasOnClose then [CloseEffect.oncloseCallback] else []))

/-- `n` consecutive `close()` calls, collecting all emitted effects. -/
def closeN : Nat → State → State × List CloseEffect
  | 0, st => (st, [])
  | n + 1, st =>
    let r1 := close st
    let r2 := closeN n r1.1
    (r2.1, r1.2 ++ r2.2)

end DualChannelTransport

/-! ## Streamable-HTTP transport (`src/services/streamableHttpTransport.ts`) -/

namespace StreamableHttpTransport

/-- Mutable state of a `StreamableHttpTransport` (constructor: lines
29-32; `apiKey` is `none` when absent, mirroring `apiKey || null`). -/
structure State where
  isStarted : Bool := false
  isClosed : Bool := false
  hasEventSource : Bool := false
  sessionId : Option String := none
  apiKey : Option String := none
  hasOnClose : Bool := false
deriving DecidableEq

/-- `start()` (lines 37-99): immediate return when already started; throw
`'Transport has been closed'` when closed; otherwise open the SSE GET
stream and become started at once — there is no handshake wait.  Returns
the new state and the thrown error's message, if any. -/
def start (st : State) : State × Option String :=
  if st.isStarted then (st, none)
  else if st.isClosed then (st, some "Transport has been closed")
  else ({ st with isStarted := true, hasEventSource := true }, none)

/-- The HTTP response to one POST, as `send` reads it. -/
structure HttpResponse where
  ok : Bool
  status : Nat := 200
  statusText : String := ""
  mcpSessionIdHeader : Option String := none
  contentTypeHeader : Option String := none
  body : String := ""

/-- The POST request `send` issues, with the headers it attaches. -/
structure PostRequest where
  contentType : String
  accept : String
  authorization : Option String
  mcpSessionId : Option String
  body : String
deriving DecidableEq

/-- Everything one `send()` call does: the state afterwards, the POST it
issued (`none` when a guard threw first), the protocol messages delivered
through `onmessage`, and the thrown error's message, if any. -/
structure SendOutcome where
  state : State
  request : Option PostRequest
  delivered : List Json
  thrown : Option String

def listHasPrefix : List Char → List Char → Bool
  | [], _ => true
  | _ :: _, [] => false
  | p :: ps, c :: cs => p == c && listHasPrefix ps cs

def listHasSubstr (needle : List Char) : List Char → Bool
  | [] => needle.isEmpty
  | c :: cs => listHasPrefix needle (c :: cs) || listHasSubstr needle cs

/-- `String.prototype.includes`. -/
def strIncludes (hay needle : String) : Bool := listHasSubstr needle.data hay.data

/-- `'method' in message && message.method === 'initialize'` (line 144). -/
def isInitializeRequest (message : Json) : Bool :=
  match message.getProp "method" with
  | some (.str m) => m == "initialize"
  | _ => false

/-- Lines 173-187: split an SSE-formatted response body on newlines and
decode every `data: `-prefixed line as an independent JSON-RPC message,
skipping lines that fail to parse. -/
def parseSSEBody (body : String) : List Json :=
  (body.splitOn "\n").filterMap fun line =>
    if line.startsWith "data: " then jsonParse (line.drop 6) else none

/-- `send()` (lines 104-195): guard checks; headers `Content-Type`,
`Accept`, optional `Authorization: Bearer`, and `Mcp-Session-Id` once a
session id is known; POST; non-2xx throws `HTTP error` before anything
else happens; on an `initialize` request a non-empty `Mcp-Session-Id`
response header is captured; finally the response is delivered by content
type (`application/json`: the parsed body as one message — a body
`response.json()` cannot parse throws, with an engine-specific
`SyntaxError` message modelled by a fixed string; `text/event-stream`: the
`data: ` frames of the body; anything else: nothing). -/
def send (st : State) (message : Json) (resp : HttpResponse) : SendOutcome :=
  if !st.isStarted then ⟨st, none, [], some "Transport not started"⟩
  else if st.isClosed then ⟨st, none, [], some "Transport has been closed"⟩
  else
    let req : PostRequest :=
      { contentType := "application/json",
        accept := "application/json, text/event-stream",
        authorization := st.apiKey.map (fun k => "Bearer " ++ k),
        mcpSessionId := st.sessionId,
        body := stringifyComp message }
    if !resp.ok then
      ⟨st, some req, [],
        some ("HTTP error: " ++ toString resp.status ++ " " ++ resp.statusText)⟩
    else
      let st2 :=
        if isInitializeRequest message then
          match resp.mcpSessionIdHeader with
          | some sid => if sid != "" then { st with sessionId := some sid } else st
          | none => st
        else st
      let contentType := resp.contentTypeHeader.getD ""
      if strIncludes contentType "application/json" then
        match jsonParse resp.body with
        | some responseData => ⟨st2, some req, [responseData], none⟩
        | none => ⟨st2, some req, [], some "Unexpected end of JSON input"⟩
      else if strIncludes contentType "text/event-stream" then
        ⟨st2, some req, parseSSEBody resp.body, none⟩
      else ⟨st2, some req, [], none⟩

/-- Observable side effects of `close()`. -/
inductive CloseEffect where
  | deleteRequest (mcpSessionId : String)
  | closeStream
  | oncloseCallback
deriving DecidableEq

/-- `close()` (lines 200-229): early return when already closed; otherwise
mark closed, issue a best-effort DELETE with the session header when a
(truthy) session id was established, close the SSE stream, and invoke the
registered `onclose` callback.  A DELETE failure is logged, never
propagated, so `close` always returns normally. -/
def close (st : State) : State × List CloseEffect :=
  if st.isClosed then (st, [])
  else
    ({ st with isClosed := true, hasEventSource := false },
      (match st.sessionId with
        | some sid => if sid != "" then [CloseEffect.deleteRequest sid] else []
        | none => []) ++
        (if st.hasEventSource then [CloseEffect.closeStream] else []) ++
        (if st.hasOnClose then [CloseEffect.oncloseCallback] else []))

/-- `n` consecutive `close()` calls, collecting all emitted effects. -/
def closeN : Nat → State → State × List CloseEffect
  | 0, st => (st, [])
  | n + 1, st =>
    let r1 := close st
    let r2 := closeN n r1.1
    (r2.1, r1.2 ++ r2.2)

end StreamableHttpTransport

/-! ## Spec-side predicates and concrete inputs used by the theorems -/

/-- Modelled from the spec's validation rules (§4.4) as amended by the
`rag_data` / `use_reranker` carve-out: the condition under which one
present argument entry passes the type-checking loop. -/
def ArgEntryAccepted (toolName : String)
    (properties : List (String × MCPPropertySchema)) (k : String) (v : Json) :
    Prop :=
  if toolName = "rag_data" ∧ k = "use_reranker" then v.jsTypeof = "boolean"
  else
    ∀ sch ∈ (properties.find? (fun f => f.1 == k)).map (·.2),
      (sch.type = some "string" → v.jsTypeof = "string") ∧
      ((sch.type = some "number" ∨ sch.type = some "integer") →
        v.jsTypeof = "number") ∧
      (sch.type = some "boolean" → v.jsTypeof = "boolean")

/-- The spec's required-parameter condition on one name: present with a
value that is neither `undefined` nor `null`. -/
def RequiredArgPresent (args : List (String × Json)) (p : String) : Prop :=
  ∃ v, jsGet args p = some v ∧ v.isNull = false

/-- The shape of every type-mismatch diagnostic the validator produces. -/
def IsTypeMismatchMsg (m : String) : Prop :=
  ∃ p actual,
    m = "Параметр " ++ p ++ " должен быть string, получен " ++ actual ∨
    m = "Параметр " ++ p ++ " должен быть number, получен " ++ actual ∨
    m = "Параметр " ++ p ++ " должен быть boolean, получен " ++ actual

/-- The missing-required-parameter diagnostic for `p`. -/
def missingParamMsg (p : String) : String :=
  "Отсутствует обязательный параметр: " ++ p

/-- A tool requiring `{title: string}` (the spec's validation example). -/
def titleTool : MCPToolWithServer :=
  { name := "add_task",
    inputSchema :=
      { properties := some [("title", { type := some "string" })],
        required := some ["title"] },
    serverName := "local", serverUrl := "http://localhost:3001/mcp" }

/-- A `rag_data` tool whose server-advertised schema does not declare
`use_reranker` (the server never sends it; see `Chat.tsx` 1064-1068). -/
def ragTool : MCPToolWithServer :=
  { name := "rag_data",
    inputSchema :=
      { properties := some [("query", { type := some "string" })],
        required := some ["query"] },
    serverName := "local", serverUrl := "http://localhost:3001/mcp" }

/-- The three separator spellings the block markers tolerate. -/
inductive MarkerSep where
  | noSep
  | spaceSep
  | underscoreSep

/-- The separator's text. -/
def MarkerSep.text : MarkerSep → String
  | .noSep => ""
  | .spaceSep => " "
  | .underscoreSep => "_"

/-- An opening marker `TOOL<sep>CALL` with an optional trailing colon. -/
def openMarkerText (sep : MarkerSep) (colon : Bool) : String :=
  "TOOL" ++ sep.text ++ "CALL" ++ (if colon then ":" else "")

/-- A closing marker `END<sep1>TOOL<sep2>CALL`. -/
def closeMarkerText (sep1 sep2 : MarkerSep) : String :=
  "END" ++ sep1.text ++ "TOOL" ++ sep2.text ++ "CALL"

/-- A candidate tool-call block: opening marker, JSON body on its own
line, closing marker. -/
def blockText (osep : MarkerSep) (colon : Bool) (csep1 csep2 : MarkerSep)
    (body : String) : String :=
  openMarkerText osep colon ++ "\n" ++ body ++ "\n" ++ closeMarkerText csep1 csep2

/-- Character-wise lowercasing (used to exercise the `i` flag of the
block regex). -/
def lowerText (s : String) : String := String.mk (s.data.map Char.toLower)

/-- The demo block body: `{"tool": "ping"}`. -/
def demoBody : String := "\x7b\"tool\": \"ping\"\x7d"

/-- The request `demoBody` parses to. -/
def demoPingRequest : ToolCallRequest := ⟨"ping", Json.obj []⟩

/-- A marker separator's characters. -/
def MarkerSep.chars : MarkerSep → List Char
  | .noSep => []
  | .spaceSep => [' ']
  | .underscoreSep => ['_']

/-- Character-level form of `openMarkerText`. -/
def openMarkerData (sep : MarkerSep) (colon : Bool) : List Char :=
  'T' :: 'O' :: 'O' :: 'L' ::
    (sep.chars ++ ('C' :: 'A' :: 'L' :: 'L' :: (if colon then [':'] else [])))

/-- Character-level form of `closeMarkerText`. -/
def closeMarkerData (sep1 sep2 : MarkerSep) : List Char :=
  'E' :: 'N' :: 'D' ::
    (sep1.chars ++ ('T' :: 'O' :: 'O' :: 'L' :: (sep2.chars ++ ['C', 'A', 'L', 'L'])))

/-- `String.prototype.trimEnd` on a character list. -/
def jsTrimEnd (s : List Char) : List Char :=
  (s.reverse.dropWhile isJsWs).reverse

/-- One segment of a free-form model response: filler prose, an opening
marker spelled with `osep` and `colon`, the enclosed body text, and a
closing marker spelled with `csep1` and `csep2`. -/
structure BlockSpec where
  filler : String
  osep : MarkerSep
  colon : Bool
  body : String
  csep1 : MarkerSep
  csep2 : MarkerSep

/-- The text of one segment. -/
def blockSegText (b : BlockSpec) : String :=
  b.filler ++ openMarkerText b.osep b.colon ++ b.body ++ closeMarkerText b.csep1 b.csep2

/-- A whole response: the segments in order, then trailing prose. -/
def catBlocksText (segs : List BlockSpec) (trailing : String) : String :=
  segs.foldr (fun b acc => blockSegText b ++ acc) trailing

/-- The request the second demo body parses to. -/
def demoSecondRequest : ToolCallRequest := ⟨"add_task", Json.obj [("title", Json.str "x")]⟩

/-- A model response embedding two differently spelled blocks in
surrounding prose: `TOOL CALL:` … `END_TOOLCALL` and a lowercase
`tool_call` … `end tool call`. -/
def demoEmbeddedText : String :=
  "I will call a tool now.\nTOOL CALL: \x7b\"tool\": \"ping\"\x7d END_TOOLCALL\nAnd one more:\ntool_call\n\x7b\"tool\": \"add_task\", \"arguments\": \x7b\"title\": \"x\"\x7d\x7d\nend tool call\nAll done."

/-- Two concrete segments with prose fillers, distinct marker spellings
and distinct bodies. -/
def demoSegs : List BlockSpec :=
  [⟨"Calling now: ", .spaceSep, true, "\n\x7b\"tool\": \"ping\"\x7d\n", .underscoreSep, .noSep⟩,
   ⟨" and again: ", .underscoreSep, false, " \x7b\"tool\": \"add_task\"\x7d ", .spaceSep, .spaceSep⟩]


/-- A model response that always contains one valid tool-call block
(`TOOL_CALL:` ... `END_TOOL_CALL`). -/
def demoLoopResponse : String :=
  blockText .underscoreSep true .underscoreSep .underscoreSep demoBody

/-- A parsed value whose `arguments` is a JSON array. -/
def arrayArgsJson : Json :=
  Json.obj [("tool", Json.str "add_task"), ("arguments", Json.arr [Json.num 1 0])]

/-- Three registry entries at discovery time: A and C deliver tools, B's
`tools/list` rejects. -/
def demoServerA : ServerFetchOutcome :=
  { name := "local", url := "http://localhost:3001/mcp",
    fetchResult := .ok
      [{ name := "add_task",
         inputSchema :=
           { properties := some [("title", { type := some "string" })],
             required := some ["title"] } }] }

def demoServerB : ServerFetchOutcome :=
  { name := "tavily", url := "https://mcp.tavily.com/mcp/",
    fetchResult := .error "Failed to fetch" }

def demoServerC : ServerFetchOutcome :=
  { name := "rag", url := "http://localhost:3002/mcp",
    fetchResult := .ok [{ name := "rag_data", inputSchema := {} }] }

/-- An endpoint handler standing for what lines 58-117 produce when the
server pushes `data: /mcp/messages?sessionId=abc123`. -/
def demoEndpointHandler : String → DualChannelTransport.Settle :=
  fun _ =>
    .resolved "http://localhost:3001/mcp/messages?sessionId=abc123" (some "abc123")

/-- A dual-channel transport that was successfully started and then
closed, reached from the fresh state through the public API. -/
def dcStartedClosed : DualChannelTransport.State :=
  (DualChannelTransport.close
    (DualChannelTransport.start {} demoEndpointHandler
      [(40, .endpointEv "/mcp/messages?sessionId=abc123")]).2.1).1

/-- A started dual-channel transport with an `onclose` callback registered. -/
def demoDCOpen : DualChannelTransport.State :=
  { isStarted := true, hasEventSource := true,
    messagesEndpoint := some "http://localhost:3001/mcp/messages?sessionId=abc123",
    sessionId := some "abc123", hasOnClose := true }

/-- A started streamable-HTTP transport with a session and an `onclose`
callback registered. -/
def demoSHTOpen : StreamableHttpTransport.State :=
  { isStarted := true, hasEventSource := true, sessionId := some "sess-1",
    apiKey := some "tvly-key", hasOnClose := true }

/-- A started streamable-HTTP transport that has not yet learned a
session id. -/
def demoSHTFresh : StreamableHttpTransport.State :=
  { isStarted := true, hasEventSource := true }

/-- A JSON-RPC `initialize` request. -/
def demoInitializeMsg : Json :=
  Json.obj [("jsonrpc", Json.str "2.0"), ("id", Json.num 0 0),
            ("method", Json.str "initialize"), ("params", Json.obj [])]

/-- A 200 response to the `initialize` POST carrying an `Mcp-Session-Id`
header and a JSON body. -/
def demoInitResponse : StreamableHttpTransport.HttpResponse :=
  { ok := true, mcpSessionIdHeader := some "sess-1",
    contentTypeHeader := some "application/json",
    body := "\x7b\"jsonrpc\": \"2.0\", \"id\": 0, \"result\": \x7b\x7d\x7d" }

/-- A streamable-HTTP transport that was started and then closed, reached
from the fresh state through the public API. -/
def shtStartedClosed : StreamableHttpTransport.State :=
  (StreamableHttpTransport.close (StreamableHttpTransport.start {}).1).1

/-! # Theorems -/

/-! ## C6: idempotent close -/

theorem dcClose_of_closed (st : DualChannelTransport.State)
    (h : st.isClosed = true) : DualChannelTransport.close st = (st, []) := by
  simp [DualChannelTransport.close, h]

theorem dcClose_sets_closed (st : DualChannelTransport.State) :
    (DualChannelTransport.close st).1.isClosed = true := by
  by_cases h : st.isClosed = true
  · simp [DualChannelTransport.close, h]
  · simp only [Bool.not_eq_true] at h
    simp [DualChannelTransport.close, h]

theorem dcCloseN_of_closed (n : Nat) (st : DualChannelTransport.State)
    (h : st.isClosed = true) : DualChannelTransport.closeN n st = (st, []) := by
  induction n with
  | zero => rfl
  | succ k ih =>
    simp [DualChannelTransport.closeN, dcClose_of_closed st h, ih]

theorem shtClose_of_closed (st : StreamableHttpTransport.State)
    (h : st.isClosed = true) : StreamableHttpTransport.close st = (st, []) := by
  simp [StreamableHttpTransport.close, h]

theorem shtClose_sets_closed (st : StreamableHttpTransport.State) :
    (StreamableHttpTransport.close st).1.isClosed = true := by
  by_cases h : st.isClosed = true
  · simp [StreamableHttpTransport.close, h]
  · simp only [Bool.not_eq_true] at h
    simp [StreamableHttpTransport.close, h]

theorem shtCloseN_of_closed (n : Nat) (st : StreamableHttpTransport.State)
    (h : st.isClosed = true) : StreamableHttpTransport.closeN n st = (st, []) := by
  induction n with
  | zero => rfl
  | succ k ih =>
    simp [StreamableHttpTransport.closeN, shtClose_of_closed st h, ih]

theorem dcCloseN_effects (st : DualChannelTransport.State) (n : Nat)
    (hn : 1 ≤ n) :
    (DualChannelTransport.closeN n st).2 = (DualChannelTransport.close st).2 := by
  obtain ⟨k, rfl⟩ : ∃ k, n = k + 1 := ⟨n - 1, by omega⟩
  simp [DualChannelTransport.closeN,
    dcCloseN_of_closed k _ (dcClose_sets_closed st)]

theorem shtCloseN_effects (st : StreamableHttpTransport.State) (n : Nat)
    (hn : 1 ≤ n) :
    (StreamableHttpTransport.closeN n st).2 = (StreamableHttpTransport.close st).2 := by
  obtain ⟨k, rfl⟩ : ∃ k, n = k + 1 := ⟨n - 1, by omega⟩
  simp [StreamableHttpTransport.closeN,
    shtCloseN_of_closed k _ (shtClose_sets_closed st)]

/-- C6: for both transport variants `close()` is idempotent: across `n ≥ 1`
consecutive `close()` calls on a not-yet-closed transport with a registered
`onclose` callback, the callback is invoked exactly once and the SSE stream
is closed at most once, and every call after the first is a no-op emitting
no effects.  (The second and later calls also cannot throw: both `close`
models are total functions into state–effect pairs, mirroring the bodies,
which contain no `throw` — the streamable variant even swallows its DELETE
failure.) -/
theorem transport_close_idempotent :
    (∀ (st : DualChannelTransport.State) (n : Nat),
      st.isClosed = false → st.hasOnClose = true → 1 ≤ n →
      (DualChannelTransport.closeN n st).2.count .oncloseCallback = 1 ∧
      (DualChannelTransport.closeN n st).2.count .closeStream ≤ 1 ∧
      ∀ m, (DualChannelTransport.closeN m (DualChannelTransport.close st).1).2 = []) ∧
    (∀ (st : StreamableHttpTransport.State) (n : Nat),
      st.isClosed = false → st.hasOnClose = true → 1 ≤ n →
      (StreamableHttpTransport.closeN n st).2.count .oncloseCallback = 1 ∧
      (StreamableHttpTransport.closeN n st).2.count .closeStream ≤ 1 ∧
      ∀ m, (StreamableHttpTransport.closeN m (StreamableHttpTransport.close st).1).2 = []) := by
  constructor
  · intro st n hcl hcb hn
    refine ⟨?_, ?_, fun m => (dcCloseN_of_closed m _ (dcClose_sets_closed st)).symm ▸ rfl⟩
    · rw [dcCloseN_effects st n hn]
      by_cases he : st.hasEventSource = true
      · simp [DualChannelTransport.close, hcl, hcb, he]
      · simp only [Bool.not_eq_true] at he
        simp [DualChannelTransport.close, hcl, hcb, he]
    · rw [dcCloseN_effects st n hn]
      by_cases he : st.hasEventSource = true
      · simp [DualChannelTransport.close, hcl, hcb, he]
      · simp only [Bool.not_eq_true] at he
        simp [DualChannelTransport.close, hcl, hcb, he]
  · intro st n hcl hcb hn
    refine ⟨?_, ?_, fun m => (shtCloseN_of_closed m _ (shtClose_sets_closed st)).symm ▸ rfl⟩
    · rw [shtCloseN_effects st n hn]
      rcases hs : st.sessionId with _ | sid
      · by_cases he : st.hasEventSource = true
        · simp [StreamableHttpTransport.close, hcl, hcb, he, hs]
        · simp only [Bool.not_eq_true] at he
          simp [StreamableHttpTransport.close, hcl, hcb, he, hs]
      · by_cases hsid : sid = ""
        · by_cases he : st.hasEventSource = true
          · simp [StreamableHttpTransport.close, hcl, hcb, he, hs, hsid]
          · simp only [Bool.not_eq_true] at he
            simp [StreamableHttpTransport.close, hcl, hcb, he, hs, hsid]
        · by_cases he : st.hasEventSource = true
          · simp [StreamableHttpTransport.close, hcl, hcb, he, hs, hsid]
          · simp only [Bool.not_eq_true] at he
            simp [StreamableHttpTransport.close, hcl, hcb, he, hs, hsid]
    · rw [shtCloseN_effects st n hn]
      rcases hs : st.sessionId with _ | sid
      · by_cases he : st.hasEventSource = true
        · simp [StreamableHttpTransport.close, hcl, hcb, he, hs]
        · simp only [Bool.not_eq_true] at he
          simp [StreamableHttpTransport.close, hcl, hcb, he, hs]
      · by_cases hsid : sid = ""
        · by_cases he : st.hasEventSource = true
          · simp [StreamableHttpTransport.close, hcl, hcb, he, hs, hsid]
          · simp only [Bool.not_eq_true] at he
            simp [StreamableHttpTransport.close, hcl, hcb, he, hs, hsid]
        · by_cases he : st.hasEventSource = true
          · simp [StreamableHttpTransport.close, hcl, hcb, he, hs, hsid]
          · simp only [Bool.not_eq_true] at he
            simp [StreamableHttpTransport.close, hcl, hcb, he, hs, hsid]

/-- C6 witness: two consecutive `close()` calls on concrete started
transports of both variants. -/
theorem transport_close_idempotent_witness :
    ((DualChannelTransport.closeN 2 demoDCOpen).2.count .oncloseCallback = 1 ∧
     (DualChannelTransport.closeN 2 demoDCOpen).2.count .closeStream ≤ 1 ∧
     ∀ m, (DualChannelTransport.closeN m (DualChannelTransport.close demoDCOpen).1).2 = []) ∧
    ((StreamableHttpTransport.closeN 2 demoSHTOpen).2.count .oncloseCallback = 1 ∧
     (StreamableHttpTransport.closeN 2 demoSHTOpen).2.count .closeStream ≤ 1 ∧
     ∀ m, (StreamableHttpTransport.closeN m (StreamableHttpTransport.close demoSHTOpen).1).2 = []) :=
  ⟨transport_close_idempotent.1 demoDCOpen 2 rfl rfl (by omega),
   transport_close_idempotent.2 demoSHTOpen 2 rfl rfl (by omega)⟩

/-! ## C7: handshake timeout and handshake failure -/

theorem dcRace_no_endpoint_rejects
    (hE : String → DualChannelTransport.Settle)
    (events : List (Nat × DualChannelTransport.SSEEvent))
    (hnoep : ∀ e ∈ events, ∀ d, e.2 ≠ DualChannelTransport.SSEEvent.endpointEv d) :
    (DualChannelTransport.race hE events).1 ≤ 10000 ∧
    ∃ m, (DualChannelTransport.race hE events).2 =
      DualChannelTransport.Settle.rejected m := by
  induction events with
  | nil => exact ⟨le_refl _, _, rfl⟩
  | cons e rest ih =>
    obtain ⟨t, ev⟩ := e
    by_cases ht : t < 10000
    · cases ev with
      | endpointEv d =>
        exact absurd rfl (hnoep (t, .endpointEv d) (List.mem_cons_self _ _) d)
      | messageEv d =>
        simpa [DualChannelTransport.race, ht] using
          ih (fun e he d => hnoep e (List.mem_cons_of_mem _ he) d)
      | errorEv =>
        refine ⟨?_, "Failed to establish SSE connection", ?_⟩
        · simp [DualChannelTransport.race, ht]; omega
        · simp [DualChannelTransport.race, ht]
    · simp [DualChannelTransport.race, ht]

theorem dcRace_timeout
    (hE : String → DualChannelTransport.Settle)
    (events : List (Nat × DualChannelTransport.SSEEvent))
    (hnoep : ∀ e ∈ events, ∀ d, e.2 ≠ DualChannelTransport.SSEEvent.endpointEv d)
    (herr : ∀ e ∈ events, e.2 = DualChannelTransport.SSEEvent.errorEv → 10000 ≤ e.1) :
    DualChannelTransport.race hE events =
      (10000, .rejected "Timeout waiting for endpoint event") := by
  induction events with
  | nil => rfl
  | cons e rest ih =>
    obtain ⟨t, ev⟩ := e
    by_cases ht : t < 10000
    · cases ev with
      | endpointEv d =>
        exact absurd rfl (hnoep (t, .endpointEv d) (List.mem_cons_self _ _) d)
      | messageEv d =>
        rw [show DualChannelTransport.race hE ((t, .messageEv d) :: rest) =
            DualChannelTransport.race hE rest by
          simp [DualChannelTransport.race, ht]]
        exact ih (fun e he d => hnoep e (List.mem_cons_of_mem _ he) d)
          (fun e he h2 => herr e (List.mem_cons_of_mem _ he) h2)
      | errorEv =>
        exact absurd (herr (t, .errorEv) (List.mem_cons_self _ _) rfl) (by omega)
    · simp [DualChannelTransport.race, ht]

theorem dcRace_error_before_endpoint
    (hE : String → DualChannelTransport.Settle)
    (pre post : List (Nat × DualChannelTransport.SSEEvent)) (t : Nat)
    (hpre : ∀ e ∈ pre, (∃ d, e.2 = DualChannelTransport.SSEEvent.messageEv d) ∧
      e.1 < 10000)
    (ht : t < 10000) :
    DualChannelTransport.race hE (pre ++ (t, .errorEv) :: post) =
      (t, .rejected "Failed to establish SSE connection") := by
  induction pre with
  | nil => simp [DualChannelTransport.race, ht]
  | cons e rest ih =>
    obtain ⟨⟨d, hd⟩, hlt⟩ := hpre e (List.mem_cons_self _ _)
    obtain ⟨t2, ev⟩ := e
    simp only at hd
    subst hd
    rw [List.cons_append,
      show DualChannelTransport.race hE
          ((t2, DualChannelTransport.SSEEvent.messageEv d) ::
            (rest ++ (t, .errorEv) :: post)) =
        DualChannelTransport.race hE (rest ++ (t, .errorEv) :: post) by
      simp [DualChannelTransport.race, hlt]]
    exact ih (fun e he => hpre e (List.mem_cons_of_mem _ he))

/-- C7: a `start()` of a fresh dual-channel transport never stays pending
past the 10-second ceiling when no `endpoint` event arrives: it settles by
rejecting within 10000 ms; when additionally no stream error occurs before
the deadline, the rejection is the `'Timeout waiting for endpoint event'`
handshake-timeout at exactly 10000 ms; and when the stream errors before
the endpoint event (and before the deadline), `start()` rejects at the
error's arrival time with the `'Failed to establish SSE connection'`
handshake failure. -/
theorem dualChannel_handshake_bounded
    (st : DualChannelTransport.State) (hE : String → DualChannelTransport.Settle)
    (events : List (Nat × DualChannelTransport.SSEEvent))
    (hs : st.isStarted = false) (hc : st.isClosed = false) :
    ((∀ e ∈ events, ∀ d, e.2 ≠ DualChannelTransport.SSEEvent.endpointEv d) →
      (DualChannelTransport.start st hE events).1 ≤ 10000 ∧
      ∃ m, (DualChannelTransport.start st hE events).2.2 = some m) ∧
    ((∀ e ∈ events, ∀ d, e.2 ≠ DualChannelTransport.SSEEvent.endpointEv d) →
     (∀ e ∈ events, e.2 = DualChannelTransport.SSEEvent.errorEv → 10000 ≤ e.1) →
      (DualChannelTransport.start st hE events).1 = 10000 ∧
      (DualChannelTransport.start st hE events).2.2 =
        some "Timeout waiting for endpoint event") ∧
    (∀ pre post (t : Nat),
      events = pre ++ (t, DualChannelTransport.SSEEvent.errorEv) :: post →
      (∀ e ∈ pre, (∃ d, e.2 = DualChannelTransport.SSEEvent.messageEv d) ∧
        e.1 < 10000) →
      t < 10000 →
      (DualChannelTransport.start st hE events).1 = t ∧
      (DualChannelTransport.start st hE events).2.2 =
        some "Failed to establish SSE connection") := by
  refine ⟨fun hnoep => ?_, fun hnoep herr => ?_, fun pre post t hev hpre ht => ?_⟩
  · obtain ⟨h1, m, h2⟩ := dcRace_no_endpoint_rejects hE events hnoep
    rcases hr : DualChannelTransport.race hE events with ⟨rt, rs⟩
    rw [hr] at h1 h2
    simp only at h1 h2
    subst h2
    exact ⟨by simpa [DualChannelTransport.start, hs, hc, hr] using h1,
           m, by simp [DualChannelTransport.start, hs, hc, hr]⟩
  · have hr := dcRace_timeout hE events hnoep herr
    exact ⟨by simp [DualChannelTransport.start, hs, hc, hr],
           by simp [DualChannelTransport.start, hs, hc, hr]⟩
  · subst hev
    have hr := dcRace_error_before_endpoint hE pre post t hpre ht
    exact ⟨by simp [DualChannelTransport.start, hs, hc, hr],
           by simp [DualChannelTransport.start, hs, hc, hr]⟩

/-- C7 witness: a fresh transport with no events at all times out at
10000 ms; one whose stream errors at 5 ms rejects with the handshake
failure at 5 ms. -/
theorem dualChannel_handshake_bounded_witness :
    ((DualChannelTransport.start {} demoEndpointHandler []).1 = 10000 ∧
     (DualChannelTransport.start {} demoEndpointHandler []).2.2 =
       some "Timeout waiting for endpoint event") ∧
    ((DualChannelTransport.start {} demoEndpointHandler
        [(5, DualChannelTransport.SSEEvent.errorEv)]).1 = 5 ∧
     (DualChannelTransport.start {} demoEndpointHandler
        [(5, DualChannelTransport.SSEEvent.errorEv)]).2.2 =
       some "Failed to establish SSE connection") :=
  ⟨(dualChannel_handshake_bounded {} demoEndpointHandler [] rfl rfl).2.1
      (by simp) (by simp),
   (dualChannel_handshake_bounded {} demoEndpointHandler
      [(5, DualChannelTransport.SSEEvent.errorEv)] rfl rfl).2.2 [] [] 5 rfl
      (by simp) (by omega)⟩

/-! ## C9: streamable-HTTP session identity -/

namespace StreamableHttpTransport

theorem send_request_eq (st : State) (message : Json) (resp : HttpResponse)
    (h1 : st.isStarted = true) (h2 : st.isClosed = false) :
    (send st message resp).request =
      some { contentType := "application/json",
             accept := "application/json, text/event-stream",
             authorization := st.apiKey.map (fun k => "Bearer " ++ k),
             mcpSessionId := st.sessionId,
             body := stringifyComp message } := by
  simp [send, h1, h2]
  split
  · rfl
  · split
    · split <;> rfl
    · split <;> rfl

theorem send_captures (st : State) (message : Json) (resp : HttpResponse) (sid : String)
    (h1 : st.isStarted = true) (h2 : st.isClosed = false) (hok : resp.ok = true)
    (hinit : isInitializeRequest message = true)
    (hhdr : resp.mcpSessionIdHeader = some sid) (hsid : sid ≠ "") :
    (send st message resp).state.sessionId = some sid := by
  simp [send, h1, h2, hok, hinit, hhdr, hsid]
  split
  · split <;> rfl
  · split <;> rfl

theorem send_no_capture_of_not_init (st : State) (message : Json) (resp : HttpResponse)
    (hinit : isInitializeRequest message = false) :
    (send st message resp).state.sessionId = st.sessionId := by
  by_cases h1 : st.isStarted = true
  · by_cases h2 : st.isClosed = true
    · simp [send, h1, h2]
    · simp only [Bool.not_eq_true] at h2
      by_cases hok : resp.ok = true
      · simp [send, h1, h2, hok, hinit]
        split
        · split <;> rfl
        · split <;> rfl
      · simp only [Bool.not_eq_true] at hok
        simp [send, h1, h2, hok]
  · simp only [Bool.not_eq_true] at h1
    simp [send, h1]

theorem send_no_capture_of_no_header (st : State) (message : Json) (resp : HttpResponse)
    (hhdr : resp.mcpSessionIdHeader = none) :
    (send st message resp).state.sessionId = st.sessionId := by
  by_cases h1 : st.isStarted = true
  · by_cases h2 : st.isClosed = true
    · simp [send, h1, h2]
    · simp only [Bool.not_eq_true] at h2
      by_cases hok : resp.ok = true
      · by_cases hinit : isInitializeRequest message = true
        · simp [send, h1, h2, hok, hinit, hhdr]
          split
          · split <;> rfl
          · split <;> rfl
        · simp only [Bool.not_eq_true] at hinit
          exact send_no_capture_of_not_init st message resp hinit
      · simp only [Bool.not_eq_true] at hok
        simp [send, h1, h2, hok]
  · simp only [Bool.not_eq_true] at h1
    simp [send, h1]

theorem send_no_capture_of_error (st : State) (message : Json) (resp : HttpResponse)
    (hok : resp.ok = false) :
    (send st message resp).state.sessionId = st.sessionId := by
  by_cases h1 : st.isStarted = true
  · by_cases h2 : st.isClosed = true
    · simp [send, h1, h2]
    · simp only [Bool.not_eq_true] at h2
      simp [send, h1, h2, hok]
  · simp only [Bool.not_eq_true] at h1
    simp [send, h1]

end StreamableHttpTransport

/-- C9: the streamable-HTTP transport's session-identity discipline.
(1) Whenever `send` gets past its guards it issues exactly one POST whose
`Mcp-Session-Id` header is the currently known session id — so before any
capture no session header is attached, and once a session id is known
every subsequent send carries it.  (2) The stored session id changes only
through a successful (2xx) POST of an `initialize` request whose response
carries a non-empty `Mcp-Session-Id` header, and then it becomes exactly
that header's value: a non-`initialize` message, a missing header, or a
failed POST leaves it untouched.  (3) A terminating `close()` issues its
DELETE carrying exactly the known session id, and issues no DELETE when
none was captured. -/
theorem streamableHttp_session_discipline
    (st : StreamableHttpTransport.State) (message : Json)
    (resp : StreamableHttpTransport.HttpResponse) :
    (st.isStarted = true → st.isClosed = false →
      ∃ req, (StreamableHttpTransport.send st message resp).request = some req ∧
        req.mcpSessionId = st.sessionId) ∧
    (∀ sid, st.isStarted = true → st.isClosed = false → resp.ok = true →
      StreamableHttpTransport.isInitializeRequest message = true →
      resp.mcpSessionIdHeader = some sid → sid ≠ "" →
      (StreamableHttpTransport.send st message resp).state.sessionId = some sid) ∧
    (StreamableHttpTransport.isInitializeRequest message = false →
      (StreamableHttpTransport.send st message resp).state.sessionId = st.sessionId) ∧
    (resp.mcpSessionIdHeader = none →
      (StreamableHttpTransport.send st message resp).state.sessionId = st.sessionId) ∧
    (resp.ok = false →
      (StreamableHttpTransport.send st message resp).state.sessionId = st.sessionId) ∧
    (st.isClosed = false → ∀ sid, st.sessionId = some sid → sid ≠ "" →
      StreamableHttpTransport.CloseEffect.deleteRequest sid ∈
        (StreamableHttpTransport.close st).2) ∧
    (st.sessionId = none → ∀ sid,
      StreamableHttpTransport.CloseEffect.deleteRequest sid ∉
        (StreamableHttpTransport.close st).2) := by
  refine ⟨fun h1 h2 => ⟨_, StreamableHttpTransport.send_request_eq st message resp h1 h2, rfl⟩,
    fun sid h1 h2 hok hinit hhdr hsid =>
      StreamableHttpTransport.send_captures st message resp sid h1 h2 hok hinit hhdr hsid,
    fun hinit => StreamableHttpTransport.send_no_capture_of_not_init st message resp hinit,
    fun hhdr => StreamableHttpTransport.send_no_capture_of_no_header st message resp hhdr,
    fun hok => StreamableHttpTransport.send_no_capture_of_error st message resp hok,
    fun hcl sid hsess hsid => ?_, fun hsess sid => ?_⟩
  · simp [StreamableHttpTransport.close, hcl, hsess, hsid]
  · by_cases hcl : st.isClosed = true
    · simp [StreamableHttpTransport.close, hcl]
    · simp only [Bool.not_eq_true] at hcl
      simp [StreamableHttpTransport.close, hcl, hsess]

/-- C9 witness: a fresh started transport sends the `initialize` POST with
no session header, captures `sess-1` from the response, and a transport
knowing `sess-1` attaches it and DELETEs with it on close. -/
theorem streamableHttp_session_discipline_witness :
    (∃ req, (StreamableHttpTransport.send demoSHTFresh demoInitializeMsg demoInitResponse).request = some req ∧
      req.mcpSessionId = none) ∧
    (StreamableHttpTransport.send demoSHTFresh demoInitializeMsg demoInitResponse).state.sessionId = some "sess-1" ∧
    (∃ req, (StreamableHttpTransport.send demoSHTOpen demoInitializeMsg demoInitResponse).request = some req ∧
      req.mcpSessionId = some "sess-1") ∧
    StreamableHttpTransport.CloseEffect.deleteRequest "sess-1" ∈
      (StreamableHttpTransport.close demoSHTOpen).2 :=
  ⟨(streamableHttp_session_discipline demoSHTFresh demoInitializeMsg demoInitResponse).1 rfl rfl,
   (streamableHttp_session_discipline demoSHTFresh demoInitializeMsg demoInitResponse).2.1
     "sess-1" rfl rfl rfl rfl rfl (by decide),
   (streamableHttp_session_discipline demoSHTOpen demoInitializeMsg demoInitResponse).1 rfl rfl,
   (streamableHttp_session_discipline demoSHTOpen demoInitializeMsg demoInitResponse).2.2.2.2.2.1
     rfl "sess-1" rfl (by decide)⟩

/-! ## C10: the closed state -/

/-- C10 counterexample: `dcStartedClosed` — a dual-channel transport
started and then closed through the public API — is closed, yet a further
`start()` call returns successfully (`none`: no rejection) instead of
rejecting with `'Transport has been closed'` as the claim states every
post-close `start()` does. -/
theorem dcStart_after_close_resolves :
    dcStartedClosed.isClosed = true ∧
    (DualChannelTransport.start dcStartedClosed demoEndpointHandler []).2.2 = none :=
  ⟨rfl, rfl⟩

/-- C10 (amended): after `close()` a transport can never again send or
open anything, but the error discipline is finer than claimed.
Dual-channel: `send` always rejects — with `'Transport has been closed'`
when the handshake had completed (started, endpoint known) and with the
`'Transport not started or endpoint not available'` guard otherwise —
and `start()` rejects with `'Transport has been closed'` only when the
transport never started, while on an already-started (now closed) one it
returns immediately as a no-op with the state unchanged, reopening
nothing.  The streamable-HTTP variant behaves identically with its
`'Transport not started'` guard, and its post-close `send` issues no
POST. -/
theorem transport_closed_terminal :
    (∀ (st : DualChannelTransport.State) (ok : Bool) (stat : Nat) (stext : String),
      st.isClosed = true →
      (∃ m, DualChannelTransport.send st ok stat stext = some m) ∧
      (st.isStarted = true → st.messagesEndpoint.isSome = true →
        DualChannelTransport.send st ok stat stext = some "Transport has been closed") ∧
      (st.isStarted = false ∨ st.messagesEndpoint = none →
        DualChannelTransport.send st ok stat stext =
          some "Transport not started or endpoint not available")) ∧
    (∀ (st : DualChannelTransport.State) (hE : String → DualChannelTransport.Settle)
      (events : List (Nat × DualChannelTransport.SSEEvent)), st.isClosed = true →
      (st.isStarted = false →
        DualChannelTransport.start st hE events = (0, st, some "Transport has been closed")) ∧
      (st.isStarted = true →
        DualChannelTransport.start st hE events = (0, st, none))) ∧
    (∀ (st : StreamableHttpTransport.State) (message : Json)
      (resp : StreamableHttpTransport.HttpResponse), st.isClosed = true →
      ((StreamableHttpTransport.send st message resp).request = none ∧
       ∃ m, (StreamableHttpTransport.send st message resp).thrown = some m) ∧
      (st.isStarted = true →
        (StreamableHttpTransport.send st message resp).thrown =
          some "Transport has been closed") ∧
      (st.isStarted = false →
        (StreamableHttpTransport.send st message resp).thrown =
          some "Transport not started")) ∧
    (∀ (st : StreamableHttpTransport.State), st.isClosed = true →
      (st.isStarted = false →
        StreamableHttpTransport.start st = (st, some "Transport has been closed")) ∧
      (st.isStarted = true → StreamableHttpTransport.start st = (st, none))) := by
  refine ⟨fun st ok stat stext hcl => ⟨?_, fun hs he => ?_, fun h => ?_⟩,
    fun st hE events hcl => ⟨fun hs => ?_, fun hs => ?_⟩,
    fun st message resp hcl => ⟨⟨?_, ?_⟩, fun hs => ?_, fun hs => ?_⟩,
    fun st hcl => ⟨fun hs => ?_, fun hs => ?_⟩⟩
  · by_cases hs : st.isStarted = true
    · rcases hme : st.messagesEndpoint with _ | ep
      · refine ⟨"Transport not started or endpoint not available", ?_⟩
        simp [DualChannelTransport.send, hs, hme]
      · refine ⟨"Transport has been closed", ?_⟩
        simp [DualChannelTransport.send, hs, hme, hcl]
    · simp only [Bool.not_eq_true] at hs
      refine ⟨"Transport not started or endpoint not available", ?_⟩
      simp [DualChannelTransport.send, hs]
  · rcases hme : st.messagesEndpoint with _ | ep
    · rw [hme] at he; simp at he
    · simp [DualChannelTransport.send, hs, hme, hcl]
  · rcases h with hs | hme
    · simp [DualChannelTransport.send, hs]
    · by_cases hs : st.isStarted = true
      · simp [DualChannelTransport.send, hs, hme]
      · simp only [Bool.not_eq_true] at hs
        simp [DualChannelTransport.send, hs]
  · simp [DualChannelTransport.start, hs, hcl]
  · simp [DualChannelTransport.start, hs]
  · by_cases hs : st.isStarted = true
    · simp [StreamableHttpTransport.send, hs, hcl]
    · simp only [Bool.not_eq_true] at hs
      simp [StreamableHttpTransport.send, hs]
  · by_cases hs : st.isStarted = true
    · refine ⟨"Transport has been closed", ?_⟩
      simp [StreamableHttpTransport.send, hs, hcl]
    · simp only [Bool.not_eq_true] at hs
      refine ⟨"Transport not started", ?_⟩
      simp [StreamableHttpTransport.send, hs]
  · simp [StreamableHttpTransport.send, hs, hcl]
  · simp [StreamableHttpTransport.send, hs]
  · simp [StreamableHttpTransport.start, hs, hcl]
  · simp [StreamableHttpTransport.start, hs]

/-- C10 amended-claim witness: the two API-reachable closed transports.
`dcStartedClosed` (handshake completed, then closed) rejects `send` with
the closed error and no-ops `start`; `shtStartedClosed` likewise for the
streamable variant. -/
theorem transport_closed_terminal_witness :
    DualChannelTransport.send dcStartedClosed true 200 "OK" =
      some "Transport has been closed" ∧
    DualChannelTransport.start dcStartedClosed demoEndpointHandler [] =
      (0, dcStartedClosed, none) ∧
    (StreamableHttpTransport.send shtStartedClosed demoInitializeMsg demoInitResponse).thrown =
      some "Transport has been closed" ∧
    StreamableHttpTransport.start shtStartedClosed = (shtStartedClosed, none) :=
  ⟨(transport_closed_terminal.1 dcStartedClosed true 200 "OK" rfl).2.1 rfl rfl,
   (transport_closed_terminal.2.1 dcStartedClosed demoEndpointHandler [] rfl).2 rfl,
   (transport_closed_terminal.2.2.1 shtStartedClosed demoInitializeMsg demoInitResponse rfl).2.1 rfl,
   (transport_closed_terminal.2.2.2 shtStartedClosed rfl).2 rfl⟩

/-! ## C4: tool discovery degrades per server and never throws -/

theorem statusMap_find_of_nodup (servers : List ServerFetchOutcome)
    (g : ServerFetchOutcome → ServerStatus)
    (hnd : (servers.map ServerFetchOutcome.name).Nodup)
    (s : ServerFetchOutcome) (hs : s ∈ servers) :
    (servers.map (fun i => (i.name, g i))).find? (fun p => p.1 == s.name) =
      some (s.name, g s) := by
  induction servers with
  | nil => cases hs
  | cons a rest ih =>
    rw [List.map_cons, List.nodup_cons] at hnd
    rcases List.mem_cons.mp hs with rfl | hmem
    · simp [List.find?_cons]
    · have hne : a.name ≠ s.name := by
        intro h
        exact hnd.1 (h ▸ List.mem_map.mpr ⟨s, hmem, rfl⟩)
      rw [List.map_cons, List.find?_cons]
      rw [show ((a.name, g a).1 == s.name) = false by simpa using hne]
      exact ih hnd.2 hmem

/-- C4: over a nonempty registry, `getMCPTools` always resolves (failures
— even of every server — are data in the status map, not a thrown error);
each server whose `tools/list` rejected gets status
`{connected: false, error: <non-empty>, toolCount: 0}`; and each server
whose fetch succeeded keeps its connected status with its tool count while
all its tools, tagged with that server's name and url, appear in the
merged list. -/
theorem getMCPTools_partial_failure (servers : List ServerFetchOutcome)
    (hne : servers ≠ [])
    (hnd : (servers.map ServerFetchOutcome.name).Nodup) :
    ∃ r, getMCPTools servers = Except.ok r ∧
      (∀ s ∈ servers, ∀ e, s.fetchResult = .error e →
        ∃ m, (r.serverStatuses.find? (fun p => p.1 == s.name)).map (·.2) =
            some { connected := false, error := some m, toolCount := 0 } ∧ m ≠ "") ∧
      (∀ s ∈ servers, ∀ ts, s.fetchResult = .ok ts →
        (r.serverStatuses.find? (fun p => p.1 == s.name)).map (·.2) =
          some { connected := true, error := none, toolCount := ts.length } ∧
        ∀ t ∈ ts, tagTool s.name s.url t ∈ r.tools) := by
  obtain ⟨a, rest, rfl⟩ := List.exists_cons_of_ne_nil hne
  refine ⟨_, rfl, fun s hs e herr => ?_, fun s hs ts hok => ⟨?_, fun t ht => ?_⟩⟩
  · refine ⟨if e == "" then "Failed to fetch tools" else e, ?_, ?_⟩
    · show (((a :: rest).map (fun i => (i.name, serverStatusOf i))).find?
          (fun p => p.1 == s.name)).map (·.2) = _
      rw [statusMap_find_of_nodup (a :: rest) serverStatusOf hnd s hs]
      simp [serverStatusOf, herr]
    · by_cases hc : (e == "") = true
      · simp [hc]
      · simp only [hc, if_false]
        simpa using hc
  · show (((a :: rest).map (fun i => (i.name, serverStatusOf i))).find?
        (fun p => p.1 == s.name)).map (·.2) = _
    rw [statusMap_find_of_nodup (a :: rest) serverStatusOf hnd s hs]
    simp [serverStatusOf, hok]
  · show tagTool s.name s.url t ∈ ((a :: rest).map serverToolsOf).flatten
    refine List.mem_flatten.mpr ⟨ts.map (tagTool s.name s.url), ?_,
      List.mem_map_of_mem _ ht⟩
    have h2 : serverToolsOf s = ts.map (tagTool s.name s.url) := by
      simp [serverToolsOf, hok]
    exact h2 ▸ List.mem_map_of_mem serverToolsOf hs

/-- C4 witness: three configured servers of which B (`tavily`) fails. -/
theorem getMCPTools_partial_failure_witness :
    ∃ r, getMCPTools [demoServerA, demoServerB, demoServerC] = Except.ok r ∧
      (∀ s ∈ [demoServerA, demoServerB, demoServerC], ∀ e,
        s.fetchResult = .error e →
        ∃ m, (r.serverStatuses.find? (fun p => p.1 == s.name)).map (·.2) =
            some { connected := false, error := some m, toolCount := 0 } ∧ m ≠ "") ∧
      (∀ s ∈ [demoServerA, demoServerB, demoServerC], ∀ ts,
        s.fetchResult = .ok ts →
        (r.serverStatuses.find? (fun p => p.1 == s.name)).map (·.2) =
          some { connected := true, error := none, toolCount := ts.length } ∧
        ∀ t ∈ ts, tagTool s.name s.url t ∈ r.tools) :=
  getMCPTools_partial_failure [demoServerA, demoServerB, demoServerC]
    (by simp) (by decide)

/-! ## C5: per-call failures never abort the turn -/

/-- C5: within one model turn every parsed tool call yields exactly one
synthetic assistant message and processing always continues to the next
call: (1) the outcome list has exactly one message per parsed call;
(2) an unresolved tool name yields a `TOOL_ERROR` message naming the
available tools — and no tool is invoked: the outcome is the same for
every tool-calling function, which `callTool`-freeness of the right-hand
side expresses; (3) a validation failure yields a `TOOL_ERROR` carrying
the validator's message, again independently of `callTool`; (4) a throwing
tool invocation yields a `TOOL_ERROR` carrying the exception's message. -/
theorem processToolCalls_isolates_failures :
    (∀ (tools : List MCPToolWithServer) (cfgs : List (String × ToolConfig))
      (callTool : String → List (String × Json) → Except String Json)
      (calls : List ToolCallRequest),
      (processToolCalls tools cfgs callTool calls).length = calls.length) ∧
    (∀ tools cfgs
      (callTool : String → List (String × Json) → Except String Json) tc,
      tools.find? (fun t => t.name == tc.tool) = none →
      processToolCall tools cfgs callTool tc =
        { role := .assistant,
          content := "TOOL_ERROR: " ++ tc.tool ++
            "\n\nИнструмент не найден или не активирован. Доступные инструменты: " ++
            String.intercalate ", " (tools.map (·.name)) }) ∧
    (∀ tools cfgs
      (callTool : String → List (String × Json) → Except String Json) tc tool err,
      tools.find? (fun t => t.name == tc.tool) = some tool →
      validateToolArguments tool (mergedArgsOf cfgs tool tc) = some err →
      processToolCall tools cfgs callTool tc =
        { role := .assistant,
          content := "TOOL_ERROR: " ++ tool.name ++ "\n\n" ++ err }) ∧
    (∀ tools cfgs
      (callTool : String → List (String × Json) → Except String Json) tc tool m,
      tools.find? (fun t => t.name == tc.tool) = some tool →
      validateToolArguments tool (mergedArgsOf cfgs tool tc) = none →
      callTool tool.name (mergedArgsOf cfgs tool tc) = .error m →
      processToolCall tools cfgs callTool tc =
        { role := .assistant,
          content := "TOOL_ERROR: " ++ tool.name ++ "\n\n" ++ m }) := by
  refine ⟨fun tools cfgs callTool calls => List.length_map _ _,
    fun tools cfgs callTool tc hfind => ?_,
    fun tools cfgs callTool tc tool err hfind hval => ?_,
    fun tools cfgs callTool tc tool m hfind hval hcall => ?_⟩
  · simp [processToolCall, hfind]
  · simp [processToolCall, hfind, hval]
  · simp [processToolCall, hfind, hval, hcall]

/-- C5 witness: one turn with an unknown tool, a call failing validation,
and a call whose invocation throws — each producing its own `TOOL_ERROR`
message. -/
theorem processToolCalls_isolates_failures_witness :
    (processToolCalls [titleTool] []
      (fun _ _ => Except.error "Failed to call MCP tool \"add_task\": network error")
      [⟨"mystery_tool", Json.obj []⟩, ⟨"add_task", Json.obj []⟩,
       ⟨"add_task", Json.obj [("title", Json.str "молоко")]⟩]).length = 3 ∧
    processToolCall [titleTool] []
      (fun _ _ => Except.error "Failed to call MCP tool \"add_task\": network error")
      ⟨"mystery_tool", Json.obj []⟩ =
      { role := .assistant,
        content := "TOOL_ERROR: mystery_tool" ++
          "\n\nИнструмент не найден или не активирован. Доступные инструменты: " ++
          "add_task" } ∧
    processToolCall [titleTool] []
      (fun _ _ => Except.error "Failed to call MCP tool \"add_task\": network error")
      ⟨"add_task", Json.obj []⟩ =
      { role := .assistant,
        content := "TOOL_ERROR: add_task" ++ "\n\n" ++
          "Отсутствует обязательный параметр: title" } ∧
    processToolCall [titleTool] []
      (fun _ _ => Except.error "Failed to call MCP tool \"add_task\": network error")
      ⟨"add_task", Json.obj [("title", Json.str "молоко")]⟩ =
      { role := .assistant,
        content := "TOOL_ERROR: add_task" ++ "\n\n" ++
          "Failed to call MCP tool \"add_task\": network error" } :=
  ⟨processToolCalls_isolates_failures.1 [titleTool] [] _ _,
   processToolCalls_isolates_failures.2.1 [titleTool] [] _ _ rfl,
   processToolCalls_isolates_failures.2.2.1 [titleTool] [] _ _ titleTool _ rfl rfl,
   processToolCalls_isolates_failures.2.2.2 [titleTool] [] _ _ titleTool _ rfl rfl rfl⟩

/-! ## C1: the tool-use loop is bounded -/

theorem toolUseLoopAux_iterations_le (llm : List ChatMessage → String)
    (processTurn : List ToolCallRequest → List ChatMessage) :
    ∀ (remaining : Nat) (cur : String) (msgs : List ChatMessage) (it : Nat),
      (toolUseLoopAux llm processTurn remaining cur msgs it).iterations ≤
        it + remaining := by
  intro remaining
  induction remaining with
  | zero => intro cur msgs it; simp [toolUseLoopAux]
  | succ k ih =>
    intro cur msgs it
    cases hp : parseToolRequests cur with
    | nil => simp [toolUseLoopAux, hp]
    | cons a as =>
      simp only [toolUseLoopAux, hp]
      have := ih (llm (msgs ++ [⟨.assistant, cur⟩] ++ processTurn (a :: as)))
        (msgs ++ [⟨.assistant, cur⟩] ++ processTurn (a :: as)) (it + 1)
      omega

theorem toolUseLoopAux_saturates (llm : List ChatMessage → String)
    (processTurn : List ToolCallRequest → List ChatMessage)
    (hllm : ∀ msgs, parseToolRequests (llm msgs) ≠ []) :
    ∀ (remaining : Nat) (cur : String) (msgs : List ChatMessage) (it : Nat),
      parseToolRequests cur ≠ [] →
      (toolUseLoopAux llm processTurn remaining cur msgs it).iterations =
        it + remaining ∧
      (toolUseLoopAux llm processTurn remaining cur msgs it).finalResponse =
        (if remaining = 0 then cur
         else llm (toolUseLoopAux llm processTurn remaining cur msgs it).messages) := by
  intro remaining
  induction remaining with
  | zero => intro cur msgs it hcur; simp [toolUseLoopAux]
  | succ k ih =>
    intro cur msgs it hcur
    cases hp : parseToolRequests cur with
    | nil => exact absurd hp hcur
    | cons a as =>
      simp only [toolUseLoopAux, hp]
      have hnext := ih (llm (msgs ++ [⟨.assistant, cur⟩] ++ processTurn (a :: as)))
        (msgs ++ [⟨.assistant, cur⟩] ++ processTurn (a :: as)) (it + 1)
        (hllm _)
      rcases Nat.eq_zero_or_pos k with rfl | hk
      · refine ⟨by omega, ?_⟩
        simp only [toolUseLoopAux] at hnext ⊢
        simp
      · refine ⟨by omega, ?_⟩
        rw [hnext.2, if_neg (by omega), if_neg (by omega)]

/-- C1: `handleSend`'s tool-use loop always performs at most
`MAX_ITERATIONS` (= 10) iterations — each iteration being "process the
parsed tool calls, then one follow-up model call" — and when every model
response (the first included) contains at least one valid tool-call
block, it performs exactly 10 iterations and then stops, surfacing the
10th follow-up response (the model's answer to the final transcript)
as-is, unresolved tool-call syntax and all; it never loops forever (the
loop is a total function of the remaining budget). -/
theorem toolUseLoop_bounded (llm : List ChatMessage → String)
    (processTurn : List ToolCallRequest → List ChatMessage)
    (firstResponse : String) (baseMessages : List ChatMessage) :
    (runToolUseLoop llm processTurn firstResponse baseMessages).iterations ≤
      MAX_ITERATIONS ∧
    ((∀ msgs, parseToolRequests (llm msgs) ≠ []) →
      parseToolRequests firstResponse ≠ [] →
      (runToolUseLoop llm processTurn firstResponse baseMessages).iterations =
        MAX_ITERATIONS ∧
      (runToolUseLoop llm processTurn firstResponse baseMessages).finalResponse =
        llm (runToolUseLoop llm processTurn firstResponse baseMessages).messages) := by
  constructor
  · simpa [runToolUseLoop] using
      toolUseLoopAux_iterations_le llm processTurn MAX_ITERATIONS firstResponse
        baseMessages 0
  · intro hllm hfirst
    have h := toolUseLoopAux_saturates llm processTurn hllm MAX_ITERATIONS
      firstResponse baseMessages 0 hfirst
    refine ⟨by simpa [runToolUseLoop] using h.1, ?_⟩
    have h2 := h.2
    rw [if_neg (by simp [MAX_ITERATIONS])] at h2
    exact h2

theorem demoLoopResponse_parses :
    parseToolRequests demoLoopResponse = [demoPingRequest] := rfl

/-- C1 witness: an LLM stubbed to always answer with a fresh valid
tool-call block drives the loop to exactly 10 iterations, and the
surfaced final response is the stub's (block-containing) answer to the
final transcript. -/
theorem toolUseLoop_bounded_witness :
    (runToolUseLoop (fun _ => demoLoopResponse) (fun _ => [])
      demoLoopResponse []).iterations = MAX_ITERATIONS ∧
    (runToolUseLoop (fun _ => demoLoopResponse) (fun _ => [])
      demoLoopResponse []).finalResponse =
      (fun _ => demoLoopResponse)
        (runToolUseLoop (fun _ => demoLoopResponse) (fun _ => [])
          demoLoopResponse []).messages :=
  (toolUseLoop_bounded (fun _ => demoLoopResponse) (fun _ => [])
      demoLoopResponse []).2
    (fun _ => by rw [demoLoopResponse_parses]; exact fun h => List.noConfusion h)
    (by rw [demoLoopResponse_parses]; exact fun h => List.noConfusion h)

/-! ## C8: marker tolerance of the block parser -/

theorem matchLitCI_length : ∀ (lit s t : List Char),
    matchLitCI lit s = some t → t.length + lit.length = s.length := by
  intro lit
  induction lit with
  | nil => intro s t h; cases h; simp
  | cons l ls ih =>
    intro s t h
    cases s with
    | nil => cases h
    | cons c cs =>
      rw [matchLitCI] at h
      by_cases hc : ciEq c l = true
      · rw [if_pos hc] at h
        have := ih cs t h
        simp only [List.length_cons]
        omega
      · rw [if_neg hc] at h
        cases h

theorem sepOpt_length_le (s : List Char) : (sepOpt s).length ≤ s.length := by
  cases s with
  | nil => simp [sepOpt]
  | cons c cs =>
    rw [sepOpt]
    split <;> simp

theorem matchOpen_length (s t : List Char) (h : matchOpen s = some t) :
    t.length + 8 ≤ s.length := by
  rw [matchOpen] at h
  rcases h1 : matchLitCI ['T', 'O', 'O', 'L'] s with _ | s1
  · rw [h1] at h; cases h
  · rw [h1] at h
    dsimp only at h
    rcases h2 : matchLitCI ['C', 'A', 'L', 'L'] (sepOpt s1) with _ | s2
    · rw [h2] at h; cases h
    · rw [h2] at h
      dsimp only at h
      have l1 := matchLitCI_length _ _ _ h1
      have l2 := matchLitCI_length _ _ _ h2
      have l3 := sepOpt_length_le s1
      simp only [List.length_cons, List.length_nil] at l1 l2
      split at h
      · cases h
        simp only [List.length_cons] at l2
        omega
      · cases h
        omega

theorem matchClose_length (s t : List Char) (h : matchClose s = some t) :
    t.length + 11 ≤ s.length := by
  rw [matchClose] at h
  rcases h1 : matchLitCI ['E', 'N', 'D'] s with _ | s1
  · rw [h1] at h; cases h
  · rw [h1] at h
    dsimp only at h
    rcases h2 : matchLitCI ['T', 'O', 'O', 'L'] (sepOpt s1) with _ | s2
    · rw [h2] at h; cases h
    · rw [h2] at h
      dsimp only at h
      have l1 := matchLitCI_length _ _ _ h1
      have l2 := matchLitCI_length _ _ _ h2
      have l3 := matchLitCI_length _ _ _ h
      have l4 := sepOpt_length_le s1
      have l5 := sepOpt_length_le s2
      simp only [List.length_cons, List.length_nil] at l1 l2 l3
      omega

theorem findClose_nil : findClose [] = none := rfl

theorem findClose_cons (c : Char) (cs : List Char) :
    findClose (c :: cs) =
      match matchClose ((c :: cs).dropWhile isJsWs) with
      | some rest => some ([], rest)
      | none => (findClose cs).map (fun pr => (c :: pr.1, pr.2)) := rfl

theorem findClose_rest_lt : ∀ (s : List Char) (pr : List Char × List Char),
    findClose s = some pr → pr.2.length < s.length := by
  intro s
  induction s with
  | nil => intro pr h; cases h
  | cons c cs ih =>
    intro pr h
    rw [findClose_cons] at h
    rcases hm : matchClose ((c :: cs).dropWhile isJsWs) with _ | rest
    · rw [hm] at h
      rcases hf : findClose cs with _ | pr2
      · rw [hf] at h; cases h
      · rw [hf] at h
        cases h
        have := ih pr2 hf
        simp only [List.length_cons]
        omega
    · rw [hm] at h
      cases h
      have h1 := matchClose_length _ _ hm
      have h2 : ((c :: cs).dropWhile isJsWs).length ≤ (c :: cs).length :=
        (List.dropWhile_sublist _).length_le
      simp only [List.length_cons] at h2 ⊢
      omega

theorem scanBlocksAux_nil (fuel : Nat) : scanBlocksAux fuel [] = [] := by
  cases fuel <;> rfl

theorem scanBlocksAux_fuel : ∀ (n : Nat) (s : List Char), s.length ≤ n →
    scanBlocksAux n s = scanBlocksAux s.length s := by
  intro n
  induction n using Nat.strong_induction_on with
  | _ n ihn =>
    intro s hs
    cases s with
    | nil => rw [scanBlocksAux_nil, scanBlocksAux_nil]
    | cons c cs =>
      simp only [List.length_cons] at hs
      obtain ⟨m, rfl⟩ : ∃ m, n = m + 1 := ⟨n - 1, by omega⟩
      simp only [List.length_cons]
      simp only [scanBlocksAux]
      rcases hop : matchOpen (c :: cs) with _ | afterOpen
      · dsimp only
        exact ihn m (by omega) cs (by omega)
      · dsimp only
        rcases hfc : findClose (afterOpen.dropWhile isJsWs) with _ | ⟨cap, rest⟩
        · dsimp only
          exact ihn m (by omega) cs (by omega)
        · dsimp only
          have r1 := findClose_rest_lt _ _ hfc
          simp only at r1
          have hlt : rest.length < cs.length + 1 := by
            have r2 : (afterOpen.dropWhile isJsWs).length ≤ afterOpen.length :=
              (List.dropWhile_sublist _).length_le
            have r3 := matchOpen_length _ _ hop
            simp only [List.length_cons] at r3
            omega
          rw [ihn m (by omega) rest (by omega),
            ihn cs.length (by omega) rest (by omega)]

theorem openMarkerText_data (s : MarkerSep) (c : Bool) :
    (openMarkerText s c).data = openMarkerData s c := by
  cases s <;> cases c <;> rfl

theorem closeMarkerText_data (s1 s2 : MarkerSep) :
    (closeMarkerText s1 s2).data = closeMarkerData s1 s2 := by
  cases s1 <;> cases s2 <;> rfl

theorem matchOpen_marker (osep : MarkerSep) (colon : Bool) (t : List Char)
    (hc : colon = true ∨ t.head? ≠ some ':') :
    matchOpen (openMarkerData osep colon ++ t) = some t := by
  rcases hc with rfl | hc
  · cases osep <;> rfl
  · cases t with
    | nil => cases colon <;> cases osep <;> rfl
    | cons c cs =>
      have hcc : c ≠ ':' := by simpa using hc
      cases colon with
      | true => cases osep <;> rfl
      | false =>
        have hstep : matchOpen (openMarkerData osep false ++ c :: cs) =
            (match c :: cs with
              | ':' :: rest => some rest
              | _ => some (c :: cs)) := by
          cases osep <;> rfl
        rw [hstep]
        split
        · rename_i rest heq
          injection heq with h1 h2
          exact absurd h1 hcc
        · rfl

theorem matchClose_marker (s1 s2 : MarkerSep) (t : List Char) :
    matchClose (closeMarkerData s1 s2 ++ t) = some t := by
  cases s1 <;> cases s2 <;> rfl

theorem matchOpen_none_of_head (c : Char) (s : List Char)
    (h : c.toLower ≠ 't') : matchOpen (c :: s) = none := by
  have h2 : ciEq c 'T' = false := by
    rw [ciEq, show 'T'.toLower = 't' from rfl]
    exact beq_eq_false_iff_ne.mpr h
  rw [matchOpen, matchLitCI, if_neg (by simp [h2])]

theorem dropWhile_append_all {α : Type} (p : α → Bool) (l1 l2 : List α)
    (h : ∀ x ∈ l1, p x = true) :
    (l1 ++ l2).dropWhile p = l2.dropWhile p := by
  induction l1 with
  | nil => rfl
  | cons a l ih =>
    rw [List.cons_append, List.dropWhile_cons,
      if_pos (h a (List.mem_cons_self _ _))]
    exact ih (fun x hx => h x (List.mem_cons_of_mem _ hx))

theorem dropWhile_append_exists {α : Type} (p : α → Bool) (l1 l2 : List α)
    (h : ∃ x ∈ l1, p x = false) :
    (l1 ++ l2).dropWhile p = l1.dropWhile p ++ l2 := by
  induction l1 with
  | nil => obtain ⟨x, hx, _⟩ := h; cases hx
  | cons a l ih =>
    by_cases ha : p a = true
    · rw [List.cons_append, List.dropWhile_cons, if_pos ha,
        List.dropWhile_cons, if_pos ha]
      refine ih ?_
      obtain ⟨x, hx, hpx⟩ := h
      rcases List.mem_cons.mp hx with rfl | hxl
      · rw [ha] at hpx; cases hpx
      · exact ⟨x, hxl, hpx⟩
    · have ha' : p a = false := by simpa using ha
      rw [List.cons_append, List.dropWhile_cons, if_neg (by simp [ha']),
        List.dropWhile_cons, if_neg (by simp [ha']), List.cons_append]

theorem jsTrimEnd_of_all_ws (s : List Char) (h : ∀ c ∈ s, isJsWs c = true) :
    jsTrimEnd s = [] := by
  rw [jsTrimEnd, List.dropWhile_eq_nil_iff.mpr (fun x hx => h x (List.mem_reverse.mp hx))]
  rfl

theorem jsTrimEnd_cons (c : Char) (cs : List Char)
    (h : isJsWs c = false ∨ jsTrimEnd cs ≠ []) :
    jsTrimEnd (c :: cs) = c :: jsTrimEnd cs := by
  rw [jsTrimEnd, List.reverse_cons]
  by_cases hall : ∀ x ∈ cs.reverse, isJsWs x = true
  · have hnil : jsTrimEnd cs = [] := by
      rw [jsTrimEnd, List.dropWhile_eq_nil_iff.mpr hall]; rfl
    have hc : isJsWs c = false := by
      rcases h with hc | hne
      · exact hc
      · exact absurd hnil hne
    rw [dropWhile_append_all _ _ _ hall, List.dropWhile_cons, if_neg (by simp [hc])]
    simp [hnil]
  · push_neg at hall
    obtain ⟨x, hx, hpx⟩ := hall
    rw [dropWhile_append_exists _ _ _ ⟨x, hx, by simpa using hpx⟩]
    simp [jsTrimEnd, List.reverse_append]

theorem matchClose_none_of_head (c : Char) (s : List Char)
    (h : c.toLower ≠ 'e') : matchClose (c :: s) = none := by
  have h2 : ciEq c 'E' = false := by
    rw [ciEq, show 'E'.toLower = 'e' from rfl]
    exact beq_eq_false_iff_ne.mpr h
  rw [matchClose, matchLitCI, if_neg (by simp [h2])]

theorem dropWhile_close (cs1 cs2 : MarkerSep) (t : List Char) :
    (closeMarkerData cs1 cs2 ++ t).dropWhile isJsWs = closeMarkerData cs1 cs2 ++ t := by
  rw [closeMarkerData, List.cons_append, List.dropWhile_cons, if_neg (by decide)]

theorem findClose_close (cs1 cs2 : MarkerSep) (t : List Char) :
    findClose (closeMarkerData cs1 cs2 ++ t) = some ([], t) := by
  cases cs1 <;> cases cs2 <;> rfl

theorem findClose_through_body (cs1 cs2 : MarkerSep) (t : List Char) :
    ∀ (u : List Char), (∀ c ∈ u, c.toLower ≠ 'e') →
      findClose (u ++ (closeMarkerData cs1 cs2 ++ t)) = some (jsTrimEnd u, t) := by
  intro u
  induction u with
  | nil =>
    intro _
    rw [List.nil_append, findClose_close]
    rfl
  | cons c u' ih =>
    intro hu
    have hc_ne : c.toLower ≠ 'e' := hu c (List.mem_cons_self _ _)
    have hu' : ∀ x ∈ u', x.toLower ≠ 'e' := fun x hx => hu x (List.mem_cons_of_mem _ hx)
    rw [List.cons_append, findClose_cons]
    by_cases hcws : isJsWs c = true
    · rw [List.dropWhile_cons, if_pos hcws]
      by_cases hall : ∀ x ∈ u', isJsWs x = true
      · rw [dropWhile_append_all _ _ _ hall, dropWhile_close, matchClose_marker]
        have hcu : ∀ x ∈ c :: u', isJsWs x = true := by
          intro x hx
          rcases List.mem_cons.mp hx with rfl | hx'
          · exact hcws
          · exact hall x hx'
        rw [jsTrimEnd_of_all_ws _ hcu]
      · push_neg at hall
        obtain ⟨x, hx, hxws⟩ := hall
        have hxf : isJsWs x = false := by simpa using hxws
        rw [dropWhile_append_exists _ _ _ ⟨x, hx, hxf⟩]
        have hdne : u'.dropWhile isJsWs ≠ [] := by
          intro hnil
          have h2 := List.dropWhile_eq_nil_iff.mp hnil x hx
          rw [hxf] at h2
          cases h2
        rcases hd : u'.dropWhile isJsWs with _ | ⟨b, bs⟩
        · exact absurd hd hdne
        · have hbmem : b ∈ u' := by
            have hsub := List.dropWhile_sublist (p := isJsWs) (l := u')
            rw [hd] at hsub
            exact hsub.subset (List.mem_cons_self _ _)
          rw [List.cons_append, matchClose_none_of_head b _ (hu' b hbmem), ih hu']
          have hne : jsTrimEnd u' ≠ [] := by
            rw [jsTrimEnd]
            simp only [ne_eq, List.reverse_eq_nil_iff, List.dropWhile_eq_nil_iff, List.mem_reverse]
            push_neg
            exact ⟨x, hx, by simp [hxf]⟩
          rw [jsTrimEnd_cons c u' (Or.inr hne)]
          rfl
    · have hcf : isJsWs c = false := by simpa using hcws
      rw [List.dropWhile_cons, if_neg (by simp [hcf]),
          matchClose_none_of_head c _ hc_ne, ih hu',
          jsTrimEnd_cons c u' (Or.inl hcf)]
      rfl

theorem open_len (osep : MarkerSep) (colon : Bool) :
    8 ≤ (openMarkerData osep colon).length := by
  cases osep <;> cases colon <;> decide

theorem close_len (cs1 cs2 : MarkerSep) :
    11 ≤ (closeMarkerData cs1 cs2).length := by
  cases cs1 <;> cases cs2 <;> decide

theorem scanBlocksAux_cons (fuel : Nat) (c : Char) (cs : List Char) :
    scanBlocksAux (fuel + 1) (c :: cs) =
      match matchOpen (c :: cs) with
      | some afterOpen =>
        match findClose (afterOpen.dropWhile isJsWs) with
        | some (cap, rest) => cap :: scanBlocksAux fuel rest
        | none => scanBlocksAux fuel cs
      | none => scanBlocksAux fuel cs := rfl

theorem scanBlocksAux_succ (fuel : Nat) (s : List Char) (h : s ≠ []) :
    scanBlocksAux (fuel + 1) s =
      match matchOpen s with
      | some afterOpen =>
        match findClose (afterOpen.dropWhile isJsWs) with
        | some (cap, rest) => cap :: scanBlocksAux fuel rest
        | none => scanBlocksAux fuel s.tail
      | none => scanBlocksAux fuel s.tail := by
  cases s with
  | nil => exact absurd rfl h
  | cons c cs => simp only [scanBlocksAux_cons, List.tail_cons]

theorem scanBlocksAux_filler (f s : List Char) (hf : ∀ c ∈ f, c.toLower ≠ 't') :
    scanBlocksAux (f ++ s).length (f ++ s) = scanBlocksAux s.length s := by
  induction f with
  | nil => rw [List.nil_append]
  | cons c f' ih =>
    rw [List.cons_append]
    rw [show (c :: (f' ++ s)).length = (f' ++ s).length + 1 from rfl]
    rw [scanBlocksAux_cons, matchOpen_none_of_head c _ (hf c (List.mem_cons_self _ _))]
    exact ih fun x hx => hf x (List.mem_cons_of_mem _ hx)

theorem scanBlocksAux_no_open (f : List Char) (hf : ∀ c ∈ f, c.toLower ≠ 't') :
    scanBlocksAux f.length f = [] := by
  have h := scanBlocksAux_filler f [] hf
  rw [List.append_nil] at h
  rw [h]
  rfl

theorem scanBlocksAux_block (osep : MarkerSep) (colon : Bool) (cs1 cs2 : MarkerSep)
    (body rest : List Char)
    (hcolon : colon = true ∨ (body ++ (closeMarkerData cs1 cs2 ++ rest)).head? ≠ some ':')
    (hbody : ∀ c ∈ body, c.toLower ≠ 'e') :
    scanBlocksAux (openMarkerData osep colon ++ (body ++ (closeMarkerData cs1 cs2 ++ rest))).length
        (openMarkerData osep colon ++ (body ++ (closeMarkerData cs1 cs2 ++ rest)))
      = jsTrim body :: scanBlocksAux rest.length rest := by
  have hlen : 8 + (body.length + (11 + rest.length)) ≤
      (openMarkerData osep colon ++ (body ++ (closeMarkerData cs1 cs2 ++ rest))).length := by
    simp only [List.length_append]
    have h1 := open_len osep colon
    have h2 := close_len cs1 cs2
    omega
  obtain ⟨m, hm⟩ : ∃ m,
      (openMarkerData osep colon ++ (body ++ (closeMarkerData cs1 cs2 ++ rest))).length = m + 1 :=
    ⟨(openMarkerData osep colon ++ (body ++ (closeMarkerData cs1 cs2 ++ rest))).length - 1,
      by omega⟩
  rw [hm, scanBlocksAux_succ m _
    (by intro h0; rw [h0] at hm; simp only [List.length_nil] at hm; omega)]
  rw [matchOpen_marker osep colon _ hcolon]
  dsimp only
  by_cases hallws : ∀ c ∈ body, isJsWs c = true
  · rw [dropWhile_append_all _ _ _ hallws, dropWhile_close, findClose_close]
    dsimp only
    have hjt : jsTrim body = [] := by
      rw [jsTrim, List.dropWhile_eq_nil_iff.mpr hallws]
      rfl
    rw [hjt, scanBlocksAux_fuel m rest (by omega)]
  · push_neg at hallws
    obtain ⟨x, hx, hxws⟩ := hallws
    have hxf : isJsWs x = false := by simpa using hxws
    rw [dropWhile_append_exists _ _ _ ⟨x, hx, hxf⟩]
    have hsub : ∀ c ∈ body.dropWhile isJsWs, c.toLower ≠ 'e' :=
      fun c hc => hbody c ((List.dropWhile_sublist _).subset hc)
    rw [findClose_through_body cs1 cs2 rest _ hsub]
    dsimp only
    rw [show jsTrim body = jsTrimEnd (body.dropWhile isJsWs) from rfl,
      scanBlocksAux_fuel m rest (by omega)]

theorem dropWhileHeadFalse {α : Type} (p : α → Bool) :
    ∀ (l : List α) (b : α) (bs : List α), l.dropWhile p = b :: bs → p b = false := by
  intro l
  induction l with
  | nil => intro b bs h; cases h
  | cons c cs ih =>
    intro b bs h
    rw [List.dropWhile_cons] at h
    by_cases hc : p c = true
    · rw [if_pos hc] at h
      exact ih b bs h
    · rw [if_neg hc] at h
      injection h with h1 h2
      subst h1
      simpa using hc

theorem dropWhileIdem {α : Type} (p : α → Bool) (l : List α) :
    (l.dropWhile p).dropWhile p = l.dropWhile p := by
  rcases h : l.dropWhile p with _ | ⟨b, bs⟩
  · rfl
  · rw [List.dropWhile_cons, if_neg (by simp [dropWhileHeadFalse p l b bs h])]

theorem jsTrim_idem (s : List Char) : jsTrim (jsTrim s) = jsTrim s := by
  have hstep1 : (jsTrim s).dropWhile isJsWs = jsTrim s := by
    rcases hd : jsTrim s with _ | ⟨b, bs⟩
    · rfl
    · have hsplit : jsTrim s ++ ((s.dropWhile isJsWs).reverse.takeWhile isJsWs).reverse
          = s.dropWhile isJsWs := by
        rw [jsTrim, ← List.reverse_append, List.takeWhile_append_dropWhile, List.reverse_reverse]
      rw [hd] at hsplit
      have hb : isJsWs b = false := by
        apply dropWhileHeadFalse isJsWs s b
          (bs ++ ((s.dropWhile isJsWs).reverse.takeWhile isJsWs).reverse)
        rw [← List.cons_append, hsplit]
      rw [List.dropWhile_cons, if_neg (by simp [hb])]
  rw [show jsTrim (jsTrim s) =
    (((jsTrim s).dropWhile isJsWs).reverse.dropWhile isJsWs).reverse from rfl]
  rw [hstep1]
  rw [show (jsTrim s).reverse = (s.dropWhile isJsWs).reverse.dropWhile isJsWs from by
    rw [jsTrim, List.reverse_reverse]]
  rw [dropWhileIdem]
  rw [jsTrim]

theorem blockSegText_data (b : BlockSpec) :
    (blockSegText b).data =
      b.filler.data ++ (openMarkerData b.osep b.colon ++
        (b.body.data ++ closeMarkerData b.csep1 b.csep2)) := by
  rw [blockSegText]
  simp only [String.data_append, openMarkerText_data, closeMarkerText_data, List.append_assoc]

theorem catBlocksText_cons_data (b : BlockSpec) (segs : List BlockSpec) (trailing : String) :
    (catBlocksText (b :: segs) trailing).data =
      b.filler.data ++ (openMarkerData b.osep b.colon ++ (b.body.data ++
        (closeMarkerData b.csep1 b.csep2 ++ (catBlocksText segs trailing).data))) := by
  have h : catBlocksText (b :: segs) trailing =
      blockSegText b ++ catBlocksText segs trailing := rfl
  rw [h, String.data_append, blockSegText_data]
  simp only [List.append_assoc]

theorem scanBlocks_cat (segs : List BlockSpec) (trailing : String)
    (htrail : ∀ c ∈ trailing.data, c.toLower ≠ 't') :
    (∀ b ∈ segs, ∀ c ∈ b.filler.data, c.toLower ≠ 't') →
    (∀ b ∈ segs, ∀ c ∈ b.body.data, c.toLower ≠ 'e') →
    (∀ b ∈ segs, b.colon = true ∨ b.body.data.head? ≠ some ':') →
    scanBlocks (catBlocksText segs trailing) = segs.map (fun b => jsTrim b.body.data) := by
  rw [scanBlocks]
  induction segs with
  | nil =>
    intro _ _ _
    rw [show catBlocksText [] trailing = trailing from rfl]
    exact scanBlocksAux_no_open _ htrail
  | cons b segs ih =>
    intro hfill hbody hcolon
    rw [catBlocksText_cons_data]
    rw [scanBlocksAux_filler _ _ (hfill b (List.mem_cons_self _ _))]
    have hcolon' : b.colon = true ∨
        (b.body.data ++ (closeMarkerData b.csep1 b.csep2 ++
          (catBlocksText segs trailing).data)).head? ≠ some ':' := by
      rcases hcolon b (List.mem_cons_self _ _) with h | h
      · exact Or.inl h
      · right
        cases hb : b.body.data with
        | nil =>
          rw [List.nil_append]
          rw [show (closeMarkerData b.csep1 b.csep2 ++
            (catBlocksText segs trailing).data).head? = some 'E' from rfl]
          decide
        | cons c cs =>
          rw [List.cons_append, List.head?_cons]
          rw [hb, List.head?_cons] at h
          exact h
    rw [scanBlocksAux_block b.osep b.colon b.csep1 b.csep2 b.body.data _ hcolon'
      (hbody b (List.mem_cons_self _ _))]
    rw [List.map_cons]
    rw [ih (fun x hx => hfill x (List.mem_cons_of_mem _ hx))
      (fun x hx => hbody x (List.mem_cons_of_mem _ hx))
      (fun x hx => hcolon x (List.mem_cons_of_mem _ hx))]

/-- C8: (1) over any free-form text assembled from segments — filler
prose, an opening marker (`TOOL<sep>CALL` with separator none / space /
underscore and optional trailing colon), an arbitrary enclosed body, a
closing marker (`END<sep>TOOL<sep>CALL` with independently chosen
separators) — followed by trailing prose, the scanner recognizes exactly
one block per segment, in order, capturing the trimmed body, and the
parser yields exactly the requests those bodies parse to (provided no
filler or trailing character could start an opening marker, no body
character could start a closing marker, and a colon-less opening marker
is not followed by a body starting with `:`); (2) each of the 108 marker
spellings — separators chosen independently, colon optional, uppercase or
all-lowercase — around the demo JSON body is recognized as exactly one
request; (3) in particular prose-embedded `TOOL CALL:` … `END_TOOLCALL`
together with a second lowercase `tool_call` … `end tool call` block
yields exactly the two corresponding requests. -/
theorem parseToolRequests_marker_tolerance :
    (∀ (segs : List BlockSpec) (trailing : String),
      (∀ b ∈ segs, ∀ c ∈ b.filler.data, c.toLower ≠ 't') →
      (∀ c ∈ trailing.data, c.toLower ≠ 't') →
      (∀ b ∈ segs, ∀ c ∈ b.body.data, c.toLower ≠ 'e') →
      (∀ b ∈ segs, b.colon = true ∨ b.body.data.head? ≠ some ':') →
      scanBlocks (catBlocksText segs trailing) = segs.map (fun b => jsTrim b.body.data) ∧
      parseToolRequests (catBlocksText segs trailing) =
        segs.filterMap (fun b =>
          match jsonParse (String.mk (jsTrim b.body.data)) with
          | none => none
          | some parsed => toolRequestOfJson parsed)) ∧
    (∀ (osep : MarkerSep) (colon : Bool) (csep1 csep2 : MarkerSep),
      parseToolRequests (blockText osep colon csep1 csep2 demoBody) = [demoPingRequest] ∧
      parseToolRequests (lowerText (blockText osep colon csep1 csep2 demoBody)) = [demoPingRequest]) ∧
    parseToolRequests demoEmbeddedText = [demoPingRequest, demoSecondRequest] := by
  refine ⟨?_, ?_, ?_⟩
  · intro segs trailing hfill htrail hbody hcolon
    have hscan := scanBlocks_cat segs trailing htrail hfill hbody hcolon
    refine ⟨hscan, ?_⟩
    rw [parseToolRequests, hscan, List.filterMap_map]
    simp only [Function.comp_def, jsTrim_idem]
  · intro osep colon csep1 csep2
    cases osep <;> cases colon <;> cases csep1 <;> cases csep2 <;> exact ⟨rfl, rfl⟩
  · rfl

/-- C8 witness: the two concrete demo segments with prose fillers,
distinct marker spellings and distinct bodies satisfy the side
conditions, so the scanner captures exactly their two trimmed bodies and
the parser yields exactly their two requests. -/
theorem parseToolRequests_marker_tolerance_witness :
    scanBlocks (catBlocksText demoSegs " done.") =
      demoSegs.map (fun b => jsTrim b.body.data) ∧
    parseToolRequests (catBlocksText demoSegs " done.") =
      demoSegs.filterMap (fun b =>
        match jsonParse (String.mk (jsTrim b.body.data)) with
        | none => none
        | some parsed => toolRequestOfJson parsed) :=
  parseToolRequests_marker_tolerance.1 demoSegs " done."
    (by decide) (by decide) (by decide) (by decide)

/-! ## C2: structural validation of a parsed block -/

theorem json_getProp_obj (fields : List (String × Json)) (k : String) :
    (Json.obj fields).getProp k = jsGet fields k := rfl

/-- C2 counterexample: the claim says an `arguments` field holding an
array causes the entire block to be rejected, but the code's
`typeof toolArgs !== 'object'` test is passed by arrays (`typeof []` is
`'object'` in JavaScript), so `{"tool": "add_task", "arguments": [1]}`
produces a request instead of being rejected. -/
theorem toolRequestOfJson_array_accepted :
    toolRequestOfJson arrayArgsJson =
      some ⟨"add_task", Json.arr [Json.num 1 0]⟩ := rfl

/-- C2 (amended): for every block whose text parses as JSON, the parser
yields a `ToolCallRequest` iff the parsed value is an object with a string
`tool` field whose `arguments` field is absent or of JavaScript object
type — a JSON object **or a JSON array** — while a string, number,
boolean or null `arguments` rejects the block; an absent `arguments`
defaults to the empty argument object. -/
theorem toolRequestOfJson_characterization :
    (∀ parsed : Json,
      (toolRequestOfJson parsed).isSome = true ↔
        ∃ fields, parsed = Json.obj fields ∧
          (∃ name, jsGet fields "tool" = some (Json.str name)) ∧
          (jsGet fields "arguments" = none ∨
           (∃ afields, jsGet fields "arguments" = some (Json.obj afields)) ∨
           (∃ elems, jsGet fields "arguments" = some (Json.arr elems)))) ∧
    (∀ (fields : List (String × Json)) (name : String),
      jsGet fields "tool" = some (Json.str name) →
      jsGet fields "arguments" = none →
      toolRequestOfJson (Json.obj fields) = some ⟨name, Json.obj []⟩) := by
  constructor
  · intro parsed
    constructor
    · intro h
      cases parsed with
      | null => simp [toolRequestOfJson, Json.jsTypeof, Json.isNull] at h
      | bool b => simp [toolRequestOfJson, Json.jsTypeof, Json.isNull] at h
      | num m e => simp [toolRequestOfJson, Json.jsTypeof, Json.isNull] at h
      | str s => simp [toolRequestOfJson, Json.jsTypeof, Json.isNull] at h
      | arr xs =>
        simp [toolRequestOfJson, Json.jsTypeof, Json.isNull, Json.getProp] at h
      | obj fields =>
        refine ⟨fields, rfl, ?_⟩
        rcases h3 : jsGet fields "tool" with _ | v
        · simp [toolRequestOfJson, Json.jsTypeof, Json.isNull,
            json_getProp_obj, h3] at h
        · cases v with
          | str name =>
            refine ⟨⟨name, rfl⟩, ?_⟩
            rcases h4 : jsGet fields "arguments" with _ | a
            · exact Or.inl rfl
            · cases a with
              | null =>
                simp [toolRequestOfJson, Json.jsTypeof, Json.isNull,
                  json_getProp_obj, h3, h4] at h
              | bool b =>
                simp [toolRequestOfJson, Json.jsTypeof, Json.isNull,
                  json_getProp_obj, h3, h4] at h
              | num m e =>
                simp [toolRequestOfJson, Json.jsTypeof, Json.isNull,
                  json_getProp_obj, h3, h4] at h
              | str s =>
                simp [toolRequestOfJson, Json.jsTypeof, Json.isNull,
                  json_getProp_obj, h3, h4] at h
              | obj afields => exact Or.inr (Or.inl ⟨afields, rfl⟩)
              | arr elems => exact Or.inr (Or.inr ⟨elems, rfl⟩)
          | null =>
            simp [toolRequestOfJson, Json.jsTypeof, Json.isNull,
              json_getProp_obj, h3] at h
          | bool b =>
            simp [toolRequestOfJson, Json.jsTypeof, Json.isNull,
              json_getProp_obj, h3] at h
          | num m e =>
            simp [toolRequestOfJson, Json.jsTypeof, Json.isNull,
              json_getProp_obj, h3] at h
          | arr xs =>
            simp [toolRequestOfJson, Json.jsTypeof, Json.isNull,
              json_getProp_obj, h3] at h
          | obj fs =>
            simp [toolRequestOfJson, Json.jsTypeof, Json.isNull,
              json_getProp_obj, h3] at h
    · rintro ⟨fields, rfl, ⟨name, hname⟩, hargs⟩
      rcases hargs with h4 | ⟨afields, h4⟩ | ⟨elems, h4⟩ <;>
        simp [toolRequestOfJson, Json.jsTypeof, Json.isNull,
          json_getProp_obj, hname, h4]
  · intro fields name hname hargs
    simp [toolRequestOfJson, Json.jsTypeof, Json.isNull, json_getProp_obj,
      hname, hargs]

/-- C2 witness: a `{"tool": "get_pending_tasks"}` object with absent
`arguments` is accepted with the empty argument object. -/
theorem toolRequestOfJson_characterization_witness :
    toolRequestOfJson (Json.obj [("tool", Json.str "get_pending_tasks")]) =
      some ⟨"get_pending_tasks", Json.obj []⟩ :=
  toolRequestOfJson_characterization.2 [("tool", Json.str "get_pending_tasks")]
    "get_pending_tasks" rfl rfl

/-! ## C3: argument validation -/

theorem checkRequired_eq_none_iff (args : List (String × Json)) (req : List String) :
    checkRequired args req = none ↔ ∀ p ∈ req, RequiredArgPresent args p := by
  induction req with
  | nil => simp [checkRequired]
  | cons q rest ih =>
    rcases hq : jsGet args q with _ | v
    · simp [checkRequired, hq, RequiredArgPresent]
    · by_cases hnull : v.isNull = true
      · simp [checkRequired, hq, hnull, RequiredArgPresent]
      · simp only [Bool.not_eq_true] at hnull
        have hstep : checkRequired args (q :: rest) = checkRequired args rest := by
          simp [checkRequired, hq, hnull]
        rw [hstep, ih, List.forall_mem_cons]
        exact ⟨fun h => ⟨⟨v, hq, hnull⟩, h⟩, fun h => h.2⟩

theorem checkRequired_missing (args : List (String × Json)) (req : List String)
    (p : String) (hp : p ∈ req) (hmiss : ¬RequiredArgPresent args p) :
    ∃ q, q ∈ req ∧ ¬RequiredArgPresent args q ∧
      checkRequired args req = some (missingParamMsg q) := by
  induction req with
  | nil => cases hp
  | cons a rest ih =>
    rcases ha : jsGet args a with _ | v
    · exact ⟨a, List.mem_cons_self _ _,
        by simp [RequiredArgPresent, ha],
        by simp [checkRequired, ha, missingParamMsg]⟩
    · by_cases hnull : v.isNull = true
      · refine ⟨a, List.mem_cons_self _ _, ?_,
          by simp [checkRequired, ha, hnull, missingParamMsg]⟩
        rintro ⟨v2, hv2, hv2n⟩
        rw [ha] at hv2
        cases hv2
        rw [hnull] at hv2n
        cases hv2n
      · simp only [Bool.not_eq_true] at hnull
        rcases List.mem_cons.mp hp with rfl | hprest
        · exact absurd ⟨v, ha, hnull⟩ hmiss
        · obtain ⟨q, hq1, hq2, hq3⟩ := ih hprest
          exact ⟨q, List.mem_cons_of_mem _ hq1, hq2,
            by simp [checkRequired, ha, hnull, hq3]⟩

theorem typeErrorFor_none_iff (toolName : String)
    (props : List (String × MCPPropertySchema)) (k : String) (v : Json) :
    typeErrorFor toolName props k v = none ↔
      ArgEntryAccepted toolName props k v := by
  by_cases h1 : toolName = "rag_data" ∧ k = "use_reranker"
  · have hb : (toolName == "rag_data" && k == "use_reranker") = true := by
      simp [h1.1, h1.2]
    have hstep : typeErrorFor toolName props k v =
        (if v.jsTypeof != "boolean" then
          some ("Параметр " ++ k ++ " должен быть boolean, получен " ++ v.jsTypeof)
        else none) := by
      simp [typeErrorFor, hb]
    rw [hstep, ArgEntryAccepted, if_pos h1]
    by_cases hbo : v.jsTypeof = "boolean" <;> simp [hbo]
  · have hb : (toolName == "rag_data" && k == "use_reranker") = false := by
      rcases not_and_or.mp h1 with h | h <;> simp [h]
    rcases hl : (props.find? (fun f => f.1 == k)).map (·.2) with _ | sch
    · have hstep : typeErrorFor toolName props k v = none := by
        simp [typeErrorFor, hb, hl]
      rw [hstep]
      simp [ArgEntryAccepted, if_neg h1, hl]
    · have hstep : typeErrorFor toolName props k v =
          (if sch.type == some "string" && v.jsTypeof != "string" then
            some ("Параметр " ++ k ++ " должен быть string, получен " ++ v.jsTypeof)
          else if (sch.type == some "number" || sch.type == some "integer") &&
              v.jsTypeof != "number" then
            some ("Параметр " ++ k ++ " должен быть number, получен " ++ v.jsTypeof)
          else if sch.type == some "boolean" && v.jsTypeof != "boolean" then
            some ("Параметр " ++ k ++ " должен быть boolean, получен " ++ v.jsTypeof)
          else none) := by
        simp [typeErrorFor, hb, hl]
      have hacc : ArgEntryAccepted toolName props k v ↔
          ((sch.type = some "string" → v.jsTypeof = "string") ∧
           ((sch.type = some "number" ∨ sch.type = some "integer") →
             v.jsTypeof = "number") ∧
           (sch.type = some "boolean" → v.jsTypeof = "boolean")) := by
        rw [ArgEntryAccepted, if_neg h1, hl]
        simp
      rw [hstep, hacc]
      constructor
      · intro h
        refine ⟨fun hts => ?_, fun htn => ?_, fun htb => ?_⟩
        · by_contra hne
          rw [if_pos (by simp [hts, hne])] at h
          cases h
        · by_contra hne
          have hor : (sch.type == some "number" || sch.type == some "integer") = true := by
            rcases htn with htn | htn <;> simp [htn]
          by_cases hc1 : (sch.type == some "string" && v.jsTypeof != "string") = true
          · rw [if_pos hc1] at h; cases h
          · rw [if_neg (by simpa using hc1), if_pos (by simp [hor, hne])] at h
            cases h
        · by_contra hne
          by_cases hc1 : (sch.type == some "string" && v.jsTypeof != "string") = true
          · rw [if_pos hc1] at h; cases h
          · by_cases hc2 : ((sch.type == some "number" || sch.type == some "integer") &&
                v.jsTypeof != "number") = true
            · rw [if_neg (by simpa using hc1), if_pos hc2] at h; cases h
            · rw [if_neg (by simpa using hc1), if_neg (by simpa using hc2),
                if_pos (by simp [htb, hne])] at h
              cases h
      · rintro ⟨hs, hn, hbo⟩
        have c1 : (sch.type == some "string" && v.jsTypeof != "string") = false := by
          by_cases hts : sch.type = some "string"
          · simp [hts, hs hts]
          · simp [hts]
        have c2 : ((sch.type == some "number" || sch.type == some "integer") &&
            v.jsTypeof != "number") = false := by
          by_cases htn : sch.type = some "number"
          · simp [htn, hn (Or.inl htn)]
          · by_cases hti : sch.type = some "integer"
            · simp [hti, hn (Or.inr hti)]
            · simp [htn, hti]
        have c3 : (sch.type == some "boolean" && v.jsTypeof != "boolean") = false := by
          by_cases htb : sch.type = some "boolean"
          · simp [htb, hbo htb]
          · simp [htb]
        simp [c1, c2, c3]

theorem checkTypes_eq_none_iff (toolName : String)
    (props : List (String × MCPPropertySchema))
    (entries : List (String × Json)) :
    checkTypes toolName props entries = none ↔
      ∀ kv ∈ entries, ArgEntryAccepted toolName props kv.1 kv.2 := by
  induction entries with
  | nil => simp [checkTypes]
  | cons kv rest ih =>
    obtain ⟨k, v⟩ := kv
    rcases he : typeErrorFor toolName props k v with _ | err
    · have hstep : checkTypes toolName props ((k, v) :: rest) =
          checkTypes toolName props rest := by
        simp [checkTypes, he]
      rw [hstep, ih, List.forall_mem_cons]
      exact ⟨fun h => ⟨(typeErrorFor_none_iff toolName props k v).mp he, h⟩,
        fun h => h.2⟩
    · constructor
      · intro h
        rw [show checkTypes toolName props ((k, v) :: rest) = some err from by
          simp [checkTypes, he]] at h
        cases h
      · intro h
        rw [(typeErrorFor_none_iff toolName props k v).mpr
          (h (k, v) (List.mem_cons_self _ _))] at he
        cases he

theorem typeErrorFor_msg_shape (toolName : String)
    (props : List (String × MCPPropertySchema)) (k : String) (v : Json)
    (err : String) (h : typeErrorFor toolName props k v = some err) :
    IsTypeMismatchMsg err := by
  rw [typeErrorFor] at h
  split at h
  · split at h
    · exact ⟨k, v.jsTypeof, Or.inr (Or.inr (Option.some.inj h).symm)⟩
    · cases h
  · split at h
    · cases h
    · dsimp only at h
      split at h
      · exact ⟨k, v.jsTypeof, Or.inl (Option.some.inj h).symm⟩
      · split at h
        · exact ⟨k, v.jsTypeof, Or.inr (Or.inl (Option.some.inj h).symm)⟩
        · split at h
          · exact ⟨k, v.jsTypeof, Or.inr (Or.inr (Option.some.inj h).symm)⟩
          · cases h

theorem checkTypes_mismatch (toolName : String)
    (props : List (String × MCPPropertySchema))
    (entries : List (String × Json)) (k : String) (v : Json)
    (hmem : (k, v) ∈ entries)
    (hbad : ¬ArgEntryAccepted toolName props k v) :
    ∃ m, checkTypes toolName props entries = some m ∧ IsTypeMismatchMsg m := by
  induction entries with
  | nil => cases hmem
  | cons kv rest ih =>
    obtain ⟨k1, v1⟩ := kv
    rcases he : typeErrorFor toolName props k1 v1 with _ | err
    · rcases List.mem_cons.mp hmem with heq | hmem2
      · rw [show k = k1 from congrArg Prod.fst heq,
          show v = v1 from congrArg Prod.snd heq] at hbad
        exact absurd ((typeErrorFor_none_iff toolName props k1 v1).mp he) hbad
      · obtain ⟨m, h1, h2⟩ := ih hmem2
        exact ⟨m, by simp [checkTypes, he, h1], h2⟩
    · exact ⟨err, by simp [checkTypes, he],
        typeErrorFor_msg_shape toolName props k1 v1 err he⟩

/-- C3 amended main. -/
theorem validateToolArguments_characterization :
    (∀ tool args, validateToolArguments tool args = none ↔
      ((∀ p ∈ tool.inputSchema.required.getD [], RequiredArgPresent args p) ∧
       ∀ kv ∈ args,
         ArgEntryAccepted tool.name (tool.inputSchema.properties.getD [])
           kv.1 kv.2)) ∧
    (∀ tool args p, p ∈ tool.inputSchema.required.getD [] →
      ¬RequiredArgPresent args p →
      ∃ q, q ∈ tool.inputSchema.required.getD [] ∧ ¬RequiredArgPresent args q ∧
        validateToolArguments tool args = some (missingParamMsg q)) ∧
    (∀ tool args k v,
      (∀ p ∈ tool.inputSchema.required.getD [], RequiredArgPresent args p) →
      (k, v) ∈ args →
      ¬ArgEntryAccepted tool.name (tool.inputSchema.properties.getD []) k v →
      ∃ m, validateToolArguments tool args = some m ∧ IsTypeMismatchMsg m) ∧
    validateToolArguments titleTool [] = some (missingParamMsg "title") ∧
    (∃ m, validateToolArguments titleTool [("title", Json.num 42 0)] = some m ∧
      IsTypeMismatchMsg m) ∧
    validateToolArguments titleTool
      [("title", Json.str "x"), ("extra", Json.bool true)] = none := by
  refine ⟨fun tool args => ?_, fun tool args p hp hmiss => ?_,
    fun tool args k v hreq hmem hbad => ?_, rfl,
    ⟨"Параметр title должен быть string, получен number", rfl,
      "title", "number", Or.inl rfl⟩, rfl⟩
  · rcases hr : checkRequired args (tool.inputSchema.required.getD []) with _ | e
    · have hstep : validateToolArguments tool args =
          checkTypes tool.name (tool.inputSchema.properties.getD []) args := by
        simp [validateToolArguments, hr]
      rw [hstep, checkTypes_eq_none_iff]
      exact ⟨fun h => ⟨(checkRequired_eq_none_iff args _).mp hr, h⟩,
        fun h => h.2⟩
    · constructor
      · intro h
        rw [show validateToolArguments tool args = some e from by
          simp [validateToolArguments, hr]] at h
        cases h
      · intro h
        rw [(checkRequired_eq_none_iff args _).mpr h.1] at hr
        cases hr
  · obtain ⟨q, hq1, hq2, hq3⟩ :=
      checkRequired_missing args (tool.inputSchema.required.getD []) p hp hmiss
    exact ⟨q, hq1, hq2, by simp [validateToolArguments, hq3]⟩
  · obtain ⟨m, h1, h2⟩ := checkTypes_mismatch tool.name
      (tool.inputSchema.properties.getD []) args k v hmem hbad
    exact ⟨m, by
      simp [validateToolArguments,
        (checkRequired_eq_none_iff args _).mpr hreq, h1], h2⟩

/-- C3 counterexample: the claim says every argument whose name is not
declared in the schema is tolerated and never causes a rejection, but for
the tool named `rag_data` the undeclared argument `use_reranker` is
special-cased (`Chat.tsx` 797-803) and must be a boolean: a string value
is rejected with a type error even though the schema does not declare the
parameter. -/
theorem validateToolArguments_undeclared_rejected :
    validateToolArguments ragTool
      [("query", Json.str "q"), ("use_reranker", Json.str "always")] =
      some "Параметр use_reranker должен быть boolean, получен string" := rfl

/-- C3 witness: the spec's `{}` example against `titleTool` produces the
missing-`title` error through the general missing-required part of the
characterization. -/
theorem validateToolArguments_characterization_witness :
    (∃ q, q ∈ titleTool.inputSchema.required.getD [] ∧
      ¬RequiredArgPresent [] q ∧
      validateToolArguments titleTool [] = some (missingParamMsg q)) ∧
    (∃ m, validateToolArguments titleTool [("title", Json.num 42 0)] = some m ∧
      IsTypeMismatchMsg m) :=
  ⟨validateToolArguments_characterization.2.1 titleTool [] "title"
      (by simp [titleTool])
      (by simp [RequiredArgPresent, jsGet, List.find?]),
   validateToolArguments_characterization.2.2.2.2.1⟩
